import Mathlib

/-!
Verification development for the crypto-trader repository.

Shallow embedding of the order-pair coordinator (cmd/trader/main.go), the
spread order planner (PlaceSpreadOrders), the untradeable price shifting
(PlaceLimitOrder, both variants), the balance computation (GetBalance) and
the supervised loop with its price-limit watchdog (cmd/loop with
monitorPrice).

Modelling conventions:
* Go float64 values are idealised as rationals (ℚ); the decimal literals of
  the source (0.005, 0.1, 10.0) become the exact rationals they denote.
* Fallible Go calls (HTTP requests, JSON parsing, signature generation) are
  represented by `Except` values supplied by an environment; every claim is
  quantified over all environments.
* `strconv.ParseFloat` is modelled by an executable decimal parser over the
  plain decimal grammar (sign, digits, fraction, exponent).  The hex-float,
  infinity and NaN forms Go also accepts never occur in exchange responses
  and are outside the model.
-/

namespace CryptoTrader

/-! ## String-to-number parsing (strconv.ParseFloat, parseFloat helper) -/

/-- Decimal digit test, `c ∈ '0'..'9'`. -/
def isDigit (c : Char) : Bool := '0' ≤ c && c ≤ '9'

/-- Numeric value of a digit list read in base 10. -/
def digitsVal (l : List Char) : ℕ :=
  l.foldl (fun n c => 10 * n + (c.toNat - 48)) 0

/-- Parse an unsigned decimal mantissa `digits [. digits]` (at least one digit
overall), returning its rational value and the unread remainder. -/
def parseMantissa (cs : List Char) : Option (ℚ × List Char) :=
  let intPart := cs.takeWhile isDigit
  let rest := cs.dropWhile isDigit
  match rest with
  | c :: rest2 =>
      if c = '.' then
        let fracPart := rest2.takeWhile isDigit
        let rest3 := rest2.dropWhile isDigit
        if intPart.isEmpty && fracPart.isEmpty then none
        else some ((digitsVal intPart : ℚ) + (digitsVal fracPart : ℚ) / 10 ^ fracPart.length, rest3)
      else if intPart.isEmpty then none
      else some ((digitsVal intPart : ℚ), rest)
  | [] =>
      if intPart.isEmpty then none
      else some ((digitsVal intPart : ℚ), [])

/-- Parse an optional exponent suffix `(e|E) [+|-] digits`; the input must be
consumed completely.  Returns the exponent as a sign flag and a magnitude. -/
def parseExponent (cs : List Char) : Option (Bool × ℕ) :=
  match cs with
  | [] => some (false, 0)
  | e :: rest =>
      if e = 'e' || e = 'E' then
        let (negExp, rest2) : Bool × List Char :=
          match rest with
          | c :: r => if c = '+' then (false, r) else if c = '-' then (true, r) else (false, c :: r)
          | [] => (false, [])
        if rest2.isEmpty || !rest2.all isDigit then none
        else some (negExp, digitsVal rest2)
      else none

/-- Model of Go `strconv.ParseFloat` on the decimal grammar: optional sign,
mantissa, optional exponent.  Returns the exact rational value, or an error
for strings outside the grammar. -/
def ParseFloat (s : String) : Except String ℚ :=
  let cs := s.data
  let (neg, cs1) : Bool × List Char :=
    match cs with
    | c :: r => if c = '+' then (false, r) else if c = '-' then (true, r) else (false, c :: r)
    | [] => (false, [])
  match parseMantissa cs1 with
  | none => .error "invalid syntax"
  | some (m, rest) =>
      match parseExponent rest with
      | none => .error "invalid syntax"
      | some (negExp, k) =>
          let v := if negExp then m / 10 ^ k else m * 10 ^ k
          .ok (if neg then -v else v)

/-- Model of the repository helper
`func parseFloat(s string) float64 { f, _ := strconv.ParseFloat(s, 64); return f }`:
the parse error is discarded and the zero value is returned. -/
def parseFloat (s : String) : ℚ :=
  match ParseFloat s with
  | .ok f => f
  | .error _ => 0

example : (ParseFloat "10").isOk = true := by decide
example : (ParseFloat "1.5").isOk = true := by decide
example : (ParseFloat "abc").isOk = false := by decide
example : (ParseFloat "").isOk = false := by decide
example : (ParseFloat "1.2.3").isOk = false := by decide
example : parseFloat "abc" = 0 := by decide

/-- Evaluation of the parser on the string "10". -/
theorem parseFloat_ten : parseFloat "10" = 10 := by
  show (((10 : ℕ) : ℚ) * 10 ^ (0 : ℕ)) = 10
  norm_num

/-- Evaluation of the parser on the string "99.5". -/
theorem parseFloat_995 : parseFloat "99.5" = 199/2 := by
  show ((((99 : ℕ) : ℚ) + ((5 : ℕ) : ℚ) / 10 ^ (1 : ℕ)) * 10 ^ (0 : ℕ)) = 199/2
  norm_num

/-! ## Market snapshot and spread planner (GetTickerInfo, PlaceSpreadOrders) -/

/-- SpreadInfo from internal/kraken/ticker.go.  `askPriceStr` carries the
decimal string representation of the ask price: in the source the planner
recovers it with `strconv.FormatFloat(spreadInfo.AskPrice, 'f', -1, 64)`
from the float that `GetTickerInfo` parsed out of the ticker response; the
embedding keeps the string alongside the parsed value, and theorems that
depend on the decimal-precision inference assume the round-trip
`ParseFloat askPriceStr = .ok askPrice`. -/
structure SpreadInfo where
  bidPrice : ℚ
  askPrice : ℚ
  spread : ℚ
  highPrice : ℚ
  lowPrice : ℚ
  askPriceStr : String

/-- The clamp of the spread narrowing factor into [0,1]
(PlaceSpreadOrders, loop.sh appendix lines 156-160). -/
def clampFactor (f : ℚ) : ℚ :=
  if f < 0 then 0 else if f > 1 then 1 else f

/-- Count of digits after the decimal point, mirroring
`decimals := len(priceStr) - idx - 1` with `idx := strings.Index(priceStr, ".")`
and 0 when there is no dot. -/
def decimalsOfStr (s : String) : ℕ :=
  match s.data.dropWhile (fun c => !(c = '.')) with
  | [] => 0
  | _ :: t => t.length

example : decimalsOfStr "1.01" = 2 := by decide
example : decimalsOfStr "100" = 0 := by decide
example : decimalsOfStr "0.250" = 3 := by decide

/-- Go `math.Round`: round half away from zero. -/
def goRound (x : ℚ) : ℚ :=
  if 0 ≤ x then ((⌊x + 1/2⌋ : ℤ) : ℚ) else ((⌈x - 1/2⌉ : ℤ) : ℚ)

/-- `math.Round(x*multiplier) / multiplier` with `multiplier = math.Pow10 d`. -/
def roundToDecimals (d : ℕ) (x : ℚ) : ℚ :=
  goRound (x * 10 ^ d) / 10 ^ d

/-- Center price of the spread, `(ask + bid) / 2`. -/
def centerPrice (info : SpreadInfo) : ℚ :=
  (info.askPrice + info.bidPrice) / 2

/-- Pre-rounding narrowed buy price, `bid + (center - bid) * factor`
(factor already clamped by the caller). -/
def narrowedBuy (info : SpreadInfo) (f : ℚ) : ℚ :=
  info.bidPrice + (centerPrice info - info.bidPrice) * clampFactor f

/-- Pre-rounding narrowed sell price, `ask - (ask - center) * factor`. -/
def narrowedSell (info : SpreadInfo) (f : ℚ) : ℚ :=
  info.askPrice - (info.askPrice - centerPrice info) * clampFactor f

/-- Error outcome of PlaceSpreadOrders when the narrowed prices are too
close or equal; carries the offending rounded buy and sell prices. -/
inductive PlanError where
  | invalidPlan (buy sell : ℚ)
deriving Repr

/-- Successful plan of PlaceSpreadOrders: the rounded limit prices and the
estimated profit figures computed from them. -/
structure SpreadPlan where
  buyPrice : ℚ
  sellPrice : ℚ
  estimatedProfit : ℚ
  estimatedPercentGain : ℚ

/-- Planning stage of PlaceSpreadOrders (loop.sh appendix lines 154-203):
clamp the factor, narrow both prices toward the center, round to the
decimal precision inferred from the ask price string, and reject the plan
when the rounded sell price is not strictly above the rounded buy price. -/
def placeSpreadOrdersPlan (info : SpreadInfo) (volume : ℚ) (f : ℚ) :
    Except PlanError SpreadPlan :=
  let decimals := decimalsOfStr info.askPriceStr
  let newBuyPrice := roundToDecimals decimals (narrowedBuy info f)
  let newSellPrice := roundToDecimals decimals (narrowedSell info f)
  if newSellPrice ≤ newBuyPrice then
    .error (.invalidPlan newBuyPrice newSellPrice)
  else
    .ok { buyPrice := newBuyPrice
          sellPrice := newSellPrice
          estimatedProfit := (newSellPrice - newBuyPrice) * volume
          estimatedPercentGain := ((newSellPrice - newBuyPrice) / newBuyPrice) * 100 }

/-- One limit-order submission request, as sent by PlaceLimitOrder. -/
structure OrderReq where
  isBuy : Bool
  price : ℚ
  volume : ℚ
deriving Repr

/-- The orders PlaceSpreadOrders submits: none when the plan is rejected
(the error return precedes both PlaceLimitOrder calls), otherwise the buy
leg at the rounded buy price followed by the sell leg at the rounded sell
price. -/
def spreadOrdersSubmitted (info : SpreadInfo) (volume : ℚ) (f : ℚ) : List OrderReq :=
  match placeSpreadOrdersPlan info volume f with
  | .error _ => []
  | .ok plan => [⟨true, plan.buyPrice, volume⟩, ⟨false, plan.sellPrice, volume⟩]

/-! ## Untradeable price shifting (PlaceLimitOrder, both variants) -/

/-- Price actually submitted by `internal/kraken/orders.go PlaceLimitOrder`:
in untradeable mode the buy price is multiplied by 0.1 and the sell price by
10.0, otherwise the price is passed through. -/
def placeLimitOrderPrice (price : ℚ) (isBuy untradeable : Bool) : ℚ :=
  if untradeable then
    if isBuy then price * (1/10) else price * 10
  else price

/-- Price actually submitted by the `src/orders.go` variant of
PlaceLimitOrder: untradeable prices are additionally truncated with
`math.Floor(price*0.1*1000)/1000` resp. `math.Floor(price*10.0*1000)/1000`. -/
def srcPlaceLimitOrderPrice (price : ℚ) (isBuy untradeable : Bool) : ℚ :=
  if untradeable then
    if isBuy then ((⌊price * (1/10) * 1000⌋ : ℤ) : ℚ) / 1000
    else ((⌊price * 10 * 1000⌋ : ℤ) : ℚ) / 1000
  else price

/-! ## Balance computation (internal/kraken/balance.go) -/

/-- BalanceData: the per-asset entry of the BalanceEx response,
`{balance, hold_trade}` as strings. -/
structure BalanceData where
  balance : String
  holdTrade : String
deriving Repr

/-- A parsed balance response body: the `result` mapping from asset code to
BalanceData (the JSON envelope decoding is idealised away; a body that fails
to decode corresponds to an environment error upstream). -/
def BalanceBody := List (String × BalanceData)

/-- getCoinBalance: look the asset code up in the response, an absent code
is an error. -/
def getCoinBalance (body : BalanceBody) (coin : String) : Except String BalanceData :=
  match body.lookup coin with
  | some d => .ok d
  | none => .error "balance not found in response"

/-- Balance: the computed result of GetBalance. -/
structure Balance where
  currency : String
  balance : ℚ
  holdTrade : ℚ
  available : ℚ

/-- GetBalance (internal/kraken/balance.go lines 25-71): fetch the main
currency's entry, fetch the hold currency's entry when one is named
(otherwise use the zero value), parse the main balance, the main hold_trade
and (when named) the hold currency's hold_trade, and return
`available = mainBalance - (mainHoldTrade + holdHoldTrade)`. -/
def GetBalance (body : BalanceBody) (mainCurrency holdCurrency : String) :
    Except String Balance := do
  let mainBalance ← getCoinBalance body mainCurrency
  let holdBalance ←
    if holdCurrency ≠ "" then getCoinBalance body holdCurrency
    else pure { balance := "", holdTrade := "" }
  let balanceFloat ← ParseFloat mainBalance.balance
  let mainHoldTradeFloat ← ParseFloat mainBalance.holdTrade
  let holdTradeFloat ←
    if holdCurrency ≠ "" then ParseFloat holdBalance.holdTrade
    else pure 0
  let totalHold := mainHoldTradeFloat + holdTradeFloat
  return { currency := mainCurrency
           balance := balanceFloat
           holdTrade := totalHold
           available := balanceFloat - totalHold }

/-! ## Order-pair coordinator polling loop (cmd/trader/main.go lines 219-355) -/

/-- Profit percentage for order adjustments (cmd/trader/main.go line 17):
`profitPercent = 0.005`. -/
def profitPercent : ℚ := 5/1000

/-- The `descr` sub-object of an order-status response. -/
structure OrderDescr where
  order : String
  type : String
  price : String
  pair : String

/-- OrderStatus: the per-order entry of a QueryOrders response.  All numeric
fields arrive as strings and are parsed at use sites. -/
structure OrderStatus where
  status : String
  descr : OrderDescr
  vol : String
  volExec : String
  cost : String
  fee : String

/-- Mutable state of the polling loop: the two transaction ids being
polled and the two one-shot repriced flags
(`sellOrderEdited`, `buyOrderEdited`). -/
structure LoopState where
  buyTxId : String
  sellTxId : String
  sellOrderEdited : Bool
  buyOrderEdited : Bool

/-- Static configuration of one loop run: the traded volume, the
`-editorder` flag, and the pre-trade profit estimate returned by
PlaceSpreadOrders. -/
structure LoopConfig where
  volume : ℚ
  editOrder : Bool
  estimatedProfit : ℚ
  estimatedPercentGain : ℚ

/-- Terminal outcome of the polling loop: Filled with the realized figures,
or Canceled with the pre-trade estimate. -/
inductive Outcome where
  | filled (realProfit realProfitPercent totalFees : ℚ)
  | canceled (estimatedProfit estimatedPercentGain : ℚ)

/-- The side of an order leg. -/
inductive Side where
  | buy
  | sell
deriving DecidableEq, Repr

/-- Observable actions of one poll cycle: status queries by transaction id,
edit requests with the computed price, and edit successes replacing a
transaction id. -/
inductive Event where
  | poll (side : Side) (txId : String)
  | editRequest (side : Side) (txId : String) (price volume : ℚ)
  | editSuccess (side : Side) (oldTxId newTxId : String)
deriving DecidableEq

/-- Environment of one poll cycle: the outcome of the two status queries
and, when an edit request is sent this cycle, its outcome (at most one edit
request is sent per cycle because the two reprice guards need contradictory
buy-leg statuses). -/
structure CycleInput where
  buyCheck : Except String OrderStatus
  sellCheck : Except String OrderStatus
  editResult : Except String String

/-- Terminal checks at the end of a cycle (main.go lines 286-354): both legs
closed is Filled with `(sellPrice - buyPrice) * volume`, the percent gain
over the buy price, and the sum of both fee fields, every string parsed with
the error-discarding parseFloat; both legs canceled is Canceled with the
pre-trade estimate; anything else continues polling. -/
def terminalCheck (cfg : LoopConfig) (st : LoopState) (buyOrder sellOrder : OrderStatus)
    (evs : List Event) : LoopState × Option Outcome × List Event :=
  if buyOrder.status = "closed" ∧ sellOrder.status = "closed" then
    let buyFee := parseFloat buyOrder.fee
    let sellFee := parseFloat sellOrder.fee
    let totalFees := buyFee + sellFee
    let buyPrice := parseFloat buyOrder.descr.price
    let sellPrice := parseFloat sellOrder.descr.price
    let realProfit := (sellPrice - buyPrice) * cfg.volume
    let realProfitPercent := (sellPrice - buyPrice) / buyPrice * 100
    (st, some (.filled realProfit realProfitPercent totalFees), evs)
  else if buyOrder.status = "canceled" ∧ sellOrder.status = "canceled" then
    (st, some (.canceled cfg.estimatedProfit cfg.estimatedPercentGain), evs)
  else
    (st, none, evs)

/-- Second reprice branch (main.go lines 263-283) followed by the terminal
checks: when the sell leg is closed, the buy leg open, the buy leg not yet
repriced and `-editorder` set, parse the sell leg's price, compute
`sellPrice * (1 - profitPercent)`, and send the edit; a parse or edit
failure ends the cycle (`continue`), a success replaces the buy transaction
id and sets the one-shot flag. -/
def cycleAfterSellEdit (cfg : LoopConfig) (st : LoopState) (buyOrder sellOrder : OrderStatus)
    (inp : CycleInput) (evs : List Event) : LoopState × Option Outcome × List Event :=
  if sellOrder.status = "closed" ∧ buyOrder.status = "open" ∧
      st.buyOrderEdited = false ∧ cfg.editOrder = true then
    match ParseFloat sellOrder.descr.price with
    | .error _ => (st, none, evs)
    | .ok sellPrice =>
        let newBuyPrice := sellPrice * (1 - profitPercent)
        match inp.editResult with
        | .error _ => (st, none, evs ++ [.editRequest .buy st.buyTxId newBuyPrice cfg.volume])
        | .ok newBuyTxId =>
            terminalCheck cfg
              { st with buyTxId := newBuyTxId, buyOrderEdited := true }
              buyOrder sellOrder
              (evs ++ [.editRequest .buy st.buyTxId newBuyPrice cfg.volume,
                       .editSuccess .buy st.buyTxId newBuyTxId])
  else
    terminalCheck cfg st buyOrder sellOrder evs

/-- One cycle of the polling loop (main.go lines 222-355): poll the buy leg
(a failed query ends the cycle before the sell leg is polled), poll the
sell leg, run the sell-leg reprice branch (lines 240-260), the buy-leg
reprice branch, and the terminal checks. -/
def cycle (cfg : LoopConfig) (st : LoopState) (inp : CycleInput) :
    LoopState × Option Outcome × List Event :=
  match inp.buyCheck with
  | .error _ => (st, none, [.poll .buy st.buyTxId])
  | .ok buyOrder =>
    match inp.sellCheck with
    | .error _ => (st, none, [.poll .buy st.buyTxId, .poll .sell st.sellTxId])
    | .ok sellOrder =>
      let evs := [Event.poll .buy st.buyTxId, Event.poll .sell st.sellTxId]
      if buyOrder.status = "closed" ∧ sellOrder.status = "open" ∧
          st.sellOrderEdited = false ∧ cfg.editOrder = true then
        match ParseFloat buyOrder.descr.price with
        | .error _ => (st, none, evs)
        | .ok buyPrice =>
            let newSellPrice := buyPrice * (1 + profitPercent)
            match inp.editResult with
            | .error _ =>
                (st, none, evs ++ [.editRequest .sell st.sellTxId newSellPrice cfg.volume])
            | .ok newSellTxId =>
                cycleAfterSellEdit cfg
                  { st with sellTxId := newSellTxId, sellOrderEdited := true }
                  buyOrder sellOrder inp
                  (evs ++ [.editRequest .sell st.sellTxId newSellPrice cfg.volume,
                           .editSuccess .sell st.sellTxId newSellTxId])
      else
        cycleAfterSellEdit cfg st buyOrder sellOrder inp evs

/-- The polling loop run on a list of cycle environments: it stops at the
first terminal outcome (the program exits there) and otherwise repeats. -/
def runLoop (cfg : LoopConfig) (st : LoopState) :
    List CycleInput → LoopState × Option Outcome × List Event
  | [] => (st, none, [])
  | inp :: rest =>
      match cycle cfg st inp with
      | (st', some out, evs) => (st', some out, evs)
      | (st', none, evs) =>
          let r := runLoop cfg st' rest
          (r.1, r.2.1, evs ++ r.2.2)

/-! ## Price-limit watchdog and supervised loop (cmd/loop variant with
monitorPrice, unnamed part_004) -/

/-- Requests the watchdog sends on one tick, in order. `setFlag` is the
mutex-guarded write of the shared canceled flag; `cancelAll` stands for one
CancelAllOrders call (internally an open-orders fetch plus one CancelOrder
per order); `placeSellOrder` is the exit limit sell. -/
inductive MEvent where
  | setFlag
  | queryOpenOrders
  | cancelAll
  | queryBalance
  | placeSellOrder (price volume : ℚ)
deriving DecidableEq

/-- Environment of one watchdog tick: the ticker fetch, the up to three
open-orders queries (initial, verify, verify-after-retry), the up to two
CancelAllOrders outcomes, the balance fetch (standing for the signature,
BalanceEx request and response decoding), and the exit-order outcome.
Each field is consulted only when the corresponding call is reached. -/
structure MonitorEnv where
  ticker : Except String SpreadInfo
  openOrders1 : Except String (List (String × OrderStatus))
  cancel1 : Except String Unit
  openOrders2 : Except String (List (String × OrderStatus))
  cancel2 : Except String Unit
  openOrders3 : Except String (List (String × OrderStatus))
  balanceBody : Except String BalanceBody
  place : Except String String

/-- Result of one watchdog tick: whether the goroutine returned (`done`),
whether it wrote the shared canceled flag this tick (`flagSet`), and the
requests it sent. -/
structure TickResult where
  done : Bool
  flagSet : Bool
  events : List MEvent

/-- Continuation of the breach branch after order cancellation: the balance
fetch (monitorPrice lines 197-225) and the conditional exit sell order at
the current bid (lines 227-243), then `cancel(); return`.  Any error on the
way is logged and the tick ends with `continue`. -/
def monitorTickBalance (coinCode : String) (currentPrice : ℚ) (env : MonitorEnv)
    (evs : List MEvent) : TickResult :=
  match env.balanceBody with
  | .error _ => ⟨false, true, evs ++ [.queryBalance]⟩
  | .ok body =>
    match GetBalance body coinCode "" with
    | .error _ => ⟨false, true, evs ++ [.queryBalance]⟩
    | .ok balance =>
        if balance.available > 0 then
          ⟨true, true, evs ++ [.queryBalance, .placeSellOrder currentPrice balance.available]⟩
        else
          ⟨true, true, evs ++ [.queryBalance]⟩

/-- One tick of the price-limit watchdog (monitorPrice lines 118-250): fetch
the ticker, compare the bid to the caller-supplied limit, and on breach set
the shared flag, cancel-and-verify (with one retry) all open orders for the
pair, then liquidate any remaining base-asset balance at the current bid and
return.  A transient error ends the tick with `continue` (the flag stays
set). -/
def monitorTick (limitPrice : ℚ) (coinCode : String) (env : MonitorEnv) : TickResult :=
  match env.ticker with
  | .error _ => ⟨false, false, []⟩
  | .ok spreadInfo =>
    let currentPrice := spreadInfo.bidPrice
    if currentPrice > limitPrice then
      let evs := [MEvent.setFlag, MEvent.queryOpenOrders]
      match env.openOrders1 with
      | .error _ => ⟨false, true, evs⟩
      | .ok openOrders =>
        if openOrders.length > 0 then
          match env.cancel1 with
          | .error _ => ⟨false, true, evs ++ [.cancelAll]⟩
          | .ok _ =>
            match env.openOrders2 with
            | .error _ => ⟨false, true, evs ++ [.cancelAll, .queryOpenOrders]⟩
            | .ok openOrders2 =>
              if openOrders2.length > 0 then
                match env.cancel2 with
                | .error _ => ⟨false, true, evs ++ [.cancelAll, .queryOpenOrders, .cancelAll]⟩
                | .ok _ =>
                  match env.openOrders3 with
                  | .error _ =>
                      ⟨false, true,
                        evs ++ [.cancelAll, .queryOpenOrders, .cancelAll, .queryOpenOrders]⟩
                  | .ok openOrders3 =>
                    if openOrders3.length > 0 then
                      ⟨false, true,
                        evs ++ [.cancelAll, .queryOpenOrders, .cancelAll, .queryOpenOrders]⟩
                    else
                      monitorTickBalance coinCode currentPrice env
                        (evs ++ [.cancelAll, .queryOpenOrders, .cancelAll, .queryOpenOrders])
              else
                monitorTickBalance coinCode currentPrice env
                  (evs ++ [.cancelAll, .queryOpenOrders])
        else
          monitorTickBalance coinCode currentPrice env evs
    else
      ⟨false, false, []⟩

/-- Shared state of the supervised runner: the mutex-guarded canceled flag,
whether the iteration loop has returned, the number of trading iterations
started, the iterations still allowed by the `-iterations` bound, and
whether the watchdog goroutine has returned. -/
structure SupState where
  canceled : Bool
  loopDone : Bool
  itersRun : ℕ
  remaining : ℕ
  monitorDone : Bool

/-- An atomic step of one of the two tasks: the iteration loop checking the
flag and (if clear) running one trader invocation with the given result, or
the watchdog receiving one ticker tick with the given environment. -/
inductive SupAction where
  | loopCheck (traderOk : Bool)
  | monTick (env : MonitorEnv)

/-- Interleaving semantics of the supervised runner (part_004 main lines
80-109 and monitorPrice): the loop body first reads the flag under the mutex
and returns when it is set or the iteration budget is exhausted, otherwise
it starts one trading iteration (a failed trader run exits the process);
the watchdog tick ORs its flag write into the shared flag and may mark the
watchdog done. -/
def supStep (limitPrice : ℚ) (coinCode : String) (s : SupState) : SupAction → SupState
  | .loopCheck traderOk =>
      if s.loopDone then s
      else if s.canceled then { s with loopDone := true }
      else if s.remaining = 0 then { s with loopDone := true }
      else if traderOk then
        { s with itersRun := s.itersRun + 1, remaining := s.remaining - 1 }
      else { s with loopDone := true }
  | .monTick env =>
      if s.monitorDone then s
      else
        let r := monitorTick limitPrice coinCode env
        { s with canceled := s.canceled || r.flagSet, monitorDone := r.done }

/-- A run of the supervised system over a list of interleaved task steps. -/
def supRun (limitPrice : ℚ) (coinCode : String) (s : SupState) :
    List SupAction → SupState
  | [] => s
  | a :: rest => supRun limitPrice coinCode (supStep limitPrice coinCode s a) rest

/-! ## Supporting lemmas for the planner claims -/

/-- A decimal digit character is not the dot. -/
lemma isDigit_ne_dot {c : Char} (h : isDigit c = true) : c ≠ '.' := by
  intro he
  subst he
  simp [isDigit] at h

/-- Dropping the not-a-dot prefix of `digits ++ '.' :: t` leaves `'.' :: t`. -/
lemma dropWhile_digits_dot (l t : List Char) (h : ∀ c ∈ l, isDigit c = true) :
    (l ++ '.' :: t).dropWhile (fun c => !(c = '.')) = '.' :: t := by
  induction l with
  | nil => simp [List.dropWhile]
  | cons a l ih =>
      have ha : isDigit a = true := h a (by simp)
      have hne : a ≠ '.' := isDigit_ne_dot ha
      simp only [List.cons_append, List.dropWhile_cons]
      rw [if_pos (by simpa using hne)]
      exact ih (fun c hc => h c (by simp [hc]))

/-- A list of digit characters contains no dot, so the not-a-dot prefix is
everything. -/
lemma dropWhile_digits_nil (l : List Char) (h : ∀ c ∈ l, isDigit c = true) :
    l.dropWhile (fun c => !(c = '.')) = [] := by
  rw [List.dropWhile_eq_nil_iff]
  intro c hc
  simpa using isDigit_ne_dot (h c hc)

/-- Characters kept by `takeWhile isDigit` are digits. -/
lemma mem_takeWhile_isDigit {l : List Char} {c : Char}
    (hc : c ∈ l.takeWhile isDigit) : isDigit c = true :=
  List.mem_takeWhile_imp hc

/-- Decimal count of a character list, the list form of `decimalsOfStr`. -/
def decimalsOfChars (cs : List Char) : ℕ :=
  match cs.dropWhile (fun c => !(c = '.')) with
  | [] => 0
  | _ :: t => t.length

/-- Decimal count of a successfully and fully parsed mantissa: scaling the
mantissa value by ten to the number of characters after the dot gives an
integer. -/
lemma parseMantissa_integral (cs : List Char) (m : ℚ)
    (h : parseMantissa cs = some (m, [])) :
    ∃ n : ℤ, m * 10 ^ decimalsOfChars cs = n := by
  unfold parseMantissa at h
  have hsplit := List.takeWhile_append_dropWhile (p := isDigit) (l := cs)
  revert h
  cases hrest : cs.dropWhile isDigit with
  | nil =>
      intro h
      simp only [hrest] at h
      split at h
      · exact absurd h (by simp)
      · have hm : m = ((digitsVal (cs.takeWhile isDigit) : ℕ) : ℚ) := by
          have := Option.some.inj h
          exact (congrArg Prod.fst this).symm
        have hcs : cs = cs.takeWhile isDigit := by
          conv_lhs => rw [← hsplit]
          rw [hrest, List.append_nil]
        have hdrop : decimalsOfChars cs = 0 := by
          unfold decimalsOfChars
          rw [hcs, dropWhile_digits_nil _ (fun c hc => mem_takeWhile_isDigit hc)]
        rw [hdrop, hm]
        exact ⟨(digitsVal (cs.takeWhile isDigit) : ℤ), by push_cast; ring⟩
  | cons a rest' =>
      intro h
      simp only [hrest] at h
      by_cases hdot : a = '.'
      · subst hdot
        rw [if_pos rfl] at h
        split at h
        · exact absurd h (by simp)
        · have hpair := Option.some.inj h
          have hfrac : rest'.takeWhile isDigit = rest' := by
            have h3 : rest'.dropWhile isDigit = [] := congrArg Prod.snd hpair
            conv_rhs => rw [← List.takeWhile_append_dropWhile (p := isDigit) (l := rest')]
            rw [h3, List.append_nil]
          have hm : m = ((digitsVal (cs.takeWhile isDigit) : ℕ) : ℚ) +
              ((digitsVal (rest'.takeWhile isDigit) : ℕ) : ℚ) /
                10 ^ (rest'.takeWhile isDigit).length :=
            (congrArg Prod.fst hpair).symm
          have hcs : cs = cs.takeWhile isDigit ++ '.' :: rest' := by
            conv_lhs => rw [← hsplit]
            rw [hrest]
          have hdrop : decimalsOfChars cs = rest'.length := by
            unfold decimalsOfChars
            rw [hcs, dropWhile_digits_dot _ _ (fun c hc => mem_takeWhile_isDigit hc)]
          rw [hdrop, hm, hfrac]
          refine ⟨(digitsVal (cs.takeWhile isDigit) : ℤ) * 10 ^ rest'.length +
            (digitsVal rest' : ℤ), ?_⟩
          have hten : (10 : ℚ) ^ rest'.length ≠ 0 := by positivity
          push_cast
          field_simp
      · rw [if_neg hdot] at h
        split at h
        · exact absurd h (by simp)
        · exact absurd (congrArg Prod.snd (Option.some.inj h)) (by simp)

/-- The remainder returned by a successful mantissa parse is a sublist of
the input. -/
lemma parseMantissa_rest_sublist (cs : List Char) (m : ℚ) (rest : List Char)
    (h : parseMantissa cs = some (m, rest)) : rest.Sublist cs := by
  unfold parseMantissa at h
  revert h
  cases hrest : cs.dropWhile isDigit with
  | nil =>
      intro h
      simp only [hrest] at h
      split at h
      · exact absurd h (by simp)
      · have : rest = [] := (congrArg Prod.snd (Option.some.inj h)).symm
        simp [this]
  | cons a rest' =>
      intro h
      simp only [hrest] at h
      have hsub : (a :: rest').Sublist cs := hrest ▸ List.dropWhile_sublist _
      by_cases hdot : a = '.'
      · rw [if_pos hdot] at h
        split at h
        · exact absurd h (by simp)
        · have h2 : rest = rest'.dropWhile isDigit :=
            (congrArg Prod.snd (Option.some.inj h)).symm
          subst h2
          exact ((rest'.dropWhile_sublist isDigit).trans
            (List.sublist_cons_self a rest')).trans hsub
      · rw [if_neg hdot] at h
        split at h
        · exact absurd h (by simp)
        · have h2 : rest = a :: rest' := (congrArg Prod.snd (Option.some.inj h)).symm
          subst h2
          exact hsub

/-- A successful exponent parse of a list without `e`/`E` characters can
only be the empty-suffix case, with exponent zero. -/
lemma parseExponent_no_e (rest : List Char) (negExp : Bool) (k : ℕ)
    (h : parseExponent rest = some (negExp, k))
    (he : ∀ c ∈ rest, c ≠ 'e' ∧ c ≠ 'E') :
    rest = [] ∧ negExp = false ∧ k = 0 := by
  cases rest with
  | nil =>
      have := Option.some.inj h
      exact ⟨rfl, (congrArg Prod.fst this).symm, (congrArg Prod.snd this).symm⟩
  | cons e r =>
      have hne := he e (by simp)
      simp only [parseExponent] at h
      rw [if_neg (by simp [hne.1, hne.2])] at h
      exact absurd h (by simp)

/-- decimalsOfStr agrees with its list form. -/
lemma decimalsOfStr_eq (s : String) : decimalsOfStr s = decimalsOfChars s.data := rfl

/-- A leading non-dot character does not change the decimal count. -/
lemma decimalsOfChars_cons (c : Char) (r : List Char) (hc : c ≠ '.') :
    decimalsOfChars (c :: r) = decimalsOfChars r := by
  unfold decimalsOfChars
  rw [List.dropWhile_cons, if_pos (by simpa using hc)]

/-- A plain decimal string (no exponent notation) that parses successfully
represents its value with exactly the printed number of decimals: scaling by
ten to the inferred decimal count gives an integer. -/
lemma ParseFloat_integral (s : String) (q : ℚ)
    (h : ParseFloat s = .ok q)
    (he : ∀ c ∈ s.data, c ≠ 'e' ∧ c ≠ 'E') :
    ∃ n : ℤ, q * 10 ^ decimalsOfStr s = n := by
  rw [decimalsOfStr_eq]
  unfold ParseFloat at h
  revert h
  cases hcs : s.data with
  | nil =>
      intro h
      simp only [parseMantissa, List.takeWhile_nil, List.dropWhile_nil, List.isEmpty_nil,
        if_true] at h
      exact absurd h (by simp)
  | cons c r =>
      intro h
      have he' : ∀ x ∈ c :: r, x ≠ 'e' ∧ x ≠ 'E' := by
        intro x hx
        exact he x (hcs ▸ hx)
      simp only at h
      -- the three sign cases share the same core, handled by this local fact
      have core : ∀ (neg : Bool) (cs1 : List Char), cs1.Sublist (c :: r) →
          (match parseMantissa cs1 with
            | none => (Except.error "invalid syntax" : Except String ℚ)
            | some (m, rest) =>
              match parseExponent rest with
              | none => .error "invalid syntax"
              | some (negExp, k) =>
                .ok (if neg then -(if negExp then m / 10 ^ k else m * 10 ^ k)
                     else (if negExp then m / 10 ^ k else m * 10 ^ k))) = .ok q →
          ∃ n : ℤ, q * 10 ^ decimalsOfChars cs1 = n := by
        intro neg cs1 hsub hcore
        rcases hm : parseMantissa cs1 with _ | ⟨m, rest⟩
        · simp only [hm] at hcore
          exact absurd hcore (by simp)
        · simp only [hm] at hcore
          rcases hx : parseExponent rest with _ | ⟨negExp, k⟩
          · simp only [hx] at hcore
            exact absurd hcore (by simp)
          · simp only [hx] at hcore
            have hrs := parseMantissa_rest_sublist cs1 m rest hm
            have hre : ∀ x ∈ rest, x ≠ 'e' ∧ x ≠ 'E' := by
              intro x hx2
              exact he' x (hsub.subset (hrs.subset hx2))
            obtain ⟨hnil, hneg, hk⟩ := parseExponent_no_e rest negExp k hx hre
            subst hnil hneg hk
            obtain ⟨n, hn⟩ := parseMantissa_integral cs1 m hm
            cases neg with
            | false =>
                have hq : m * 10 ^ (0:ℕ) = q := by simpa using Except.ok.inj hcore
                refine ⟨n, ?_⟩
                rw [← hq]
                simpa using hn
            | true =>
                have hq : -(m * 10 ^ (0:ℕ)) = q := by simpa using Except.ok.inj hcore
                refine ⟨-n, ?_⟩
                rw [← hq]
                push_cast
                rw [pow_zero, mul_one, neg_mul, hn]
      by_cases hplus : c = '+'
      · rw [if_pos hplus] at h
        have := core false r (List.sublist_cons_self c r) h
        rwa [decimalsOfChars_cons c r (by rw [hplus]; decide)]
      · rw [if_neg hplus] at h
        by_cases hminus : c = '-'
        · rw [if_pos hminus] at h
          have := core true r (List.sublist_cons_self c r) h
          rwa [decimalsOfChars_cons c r (by rw [hminus]; decide)]
        · rw [if_neg hminus] at h
          exact core false (c :: r) (List.Sublist.refl _) h

/-- Go `math.Round` of an integer is that integer. -/
lemma goRound_intCast (n : ℤ) : goRound (n : ℚ) = n := by
  unfold goRound
  split
  · rw [show ((n:ℚ) + 1/2) = (1/2 : ℚ) + (n:ℚ) by ring, Int.floor_add_int]
    norm_num
  · rw [show ((n:ℚ) - 1/2) = (-(1/2) : ℚ) + (n:ℚ) by ring, Int.ceil_add_int]
    norm_num

/-- Rounding to `d` decimals is the identity on values that are integral at
`d` decimals. -/
lemma roundToDecimals_eq_self (d : ℕ) (q : ℚ) (h : ∃ n : ℤ, q * 10 ^ d = n) :
    roundToDecimals d q = q := by
  obtain ⟨n, hn⟩ := h
  unfold roundToDecimals
  rw [hn, goRound_intCast, ← hn]
  field_simp

/-! ## Claim C3: the planner never submits crossed orders -/

/-- C3: for every market snapshot with ask > bid, every volume, and every
narrowing factor in [0,1], the spread planner either produces rounded prices
with buyPrice < sellPrice or fails with an invalid-plan error before any
order is submitted; it never submits orders for a plan whose rounded sell
price is less than or equal to its rounded buy price. -/
theorem planner_no_crossed_orders (info : SpreadInfo) (volume f : ℚ)
    (hab : info.bidPrice < info.askPrice) (hf0 : 0 ≤ f) (hf1 : f ≤ 1) :
    (∀ plan, placeSpreadOrdersPlan info volume f = .ok plan →
      plan.buyPrice < plan.sellPrice) ∧
    (∀ e, placeSpreadOrdersPlan info volume f = .error e →
      spreadOrdersSubmitted info volume f = []) := by
  constructor
  · intro plan h
    simp only [placeSpreadOrdersPlan] at h
    split at h
    · exact absurd h (by simp)
    · next hle =>
        have := Except.ok.inj h
        rw [← this]
        exact lt_of_not_le hle
  · intro e h
    unfold spreadOrdersSubmitted
    rw [h]

/-- Witness for C3 at a concrete snapshot (bid 100, ask 101, volume 10,
narrowing factor 0). -/
theorem planner_no_crossed_orders_witness :
    ((100:ℚ) < 101 ∧ (0:ℚ) ≤ 0 ∧ (0:ℚ) ≤ 1) ∧
    ((∀ plan, placeSpreadOrdersPlan ⟨100, 101, 1, 102, 99, "101"⟩ 10 0 = .ok plan →
        plan.buyPrice < plan.sellPrice) ∧
     (∀ e, placeSpreadOrdersPlan ⟨100, 101, 1, 102, 99, "101"⟩ 10 0 = .error e →
        spreadOrdersSubmitted ⟨100, 101, 1, 102, 99, "101"⟩ 10 0 = [])) :=
  ⟨⟨by norm_num, le_refl 0, by norm_num⟩,
    planner_no_crossed_orders ⟨100, 101, 1, 102, 99, "101"⟩ 10 0
      (by norm_num) (le_refl 0) (by norm_num)⟩

/-! ## Claim C7: narrowing factor extremes -/

/-- C7: for every snapshot with ask > bid whose ask-price string is a plain
decimal representation of the ask price, narrowing factor 0 reproduces the
raw bid and ask as the pre-rounding buy and sell prices and the rounded sell
price equals the ask exactly (the rounded buy price is the bid rounded to
the ask's inferred precision); narrowing factor 1 makes both pre-rounding
prices equal the center price (bid+ask)/2, and the planner rejects that
plan as invalid. -/
theorem planner_narrowing_extremes (info : SpreadInfo) (volume : ℚ)
    (hab : info.bidPrice < info.askPrice)
    (hs : ParseFloat info.askPriceStr = .ok info.askPrice)
    (he : ∀ c ∈ info.askPriceStr.data, c ≠ 'e' ∧ c ≠ 'E') :
    narrowedBuy info 0 = info.bidPrice ∧
    narrowedSell info 0 = info.askPrice ∧
    roundToDecimals (decimalsOfStr info.askPriceStr) (narrowedSell info 0) = info.askPrice ∧
    (∀ plan, placeSpreadOrdersPlan info volume 0 = .ok plan →
      plan.sellPrice = info.askPrice ∧
      plan.buyPrice = roundToDecimals (decimalsOfStr info.askPriceStr) info.bidPrice) ∧
    narrowedBuy info 1 = centerPrice info ∧
    narrowedSell info 1 = centerPrice info ∧
    placeSpreadOrdersPlan info volume 1 =
      .error (.invalidPlan
        (roundToDecimals (decimalsOfStr info.askPriceStr) (centerPrice info))
        (roundToDecimals (decimalsOfStr info.askPriceStr) (centerPrice info))) := by
  have hclamp0 : clampFactor 0 = 0 := by norm_num [clampFactor]
  have hclamp1 : clampFactor 1 = 1 := by norm_num [clampFactor]
  have hb0 : narrowedBuy info 0 = info.bidPrice := by
    unfold narrowedBuy
    rw [hclamp0]
    ring
  have hs0 : narrowedSell info 0 = info.askPrice := by
    unfold narrowedSell
    rw [hclamp0]
    ring
  have hround : roundToDecimals (decimalsOfStr info.askPriceStr) info.askPrice =
      info.askPrice :=
    roundToDecimals_eq_self _ _ (ParseFloat_integral _ _ hs he)
  have hb1 : narrowedBuy info 1 = centerPrice info := by
    unfold narrowedBuy
    rw [hclamp1]
    ring
  have hs1 : narrowedSell info 1 = centerPrice info := by
    unfold narrowedSell
    rw [hclamp1]
    ring
  refine ⟨hb0, hs0, by rw [hs0, hround], ?_, hb1, hs1, ?_⟩
  · intro plan h
    simp only [placeSpreadOrdersPlan] at h
    rw [hb0, hs0, hround] at h
    split at h
    · exact absurd h (by simp)
    · have := Except.ok.inj h
      rw [← this]
      exact ⟨rfl, rfl⟩
  · simp only [placeSpreadOrdersPlan]
    rw [hb1, hs1]
    rw [if_pos (le_refl _)]

/-- Witness for C7 at a concrete snapshot (bid 100, ask 100.5 with string
"100.5"). -/
theorem planner_narrowing_extremes_witness :
    ((100:ℚ) < 201/2 ∧
      ParseFloat "100.5" = .ok (201/2) ∧
      (∀ c ∈ ("100.5" : String).data, c ≠ 'e' ∧ c ≠ 'E')) ∧
    (narrowedBuy ⟨100, 201/2, 1/2, 102, 99, "100.5"⟩ 0 = 100 ∧
     narrowedSell ⟨100, 201/2, 1/2, 102, 99, "100.5"⟩ 0 = 201/2 ∧
     roundToDecimals (decimalsOfStr "100.5") (narrowedSell ⟨100, 201/2, 1/2, 102, 99, "100.5"⟩ 0)
       = 201/2 ∧
     (∀ plan, placeSpreadOrdersPlan ⟨100, 201/2, 1/2, 102, 99, "100.5"⟩ 10 0 = .ok plan →
       plan.sellPrice = 201/2 ∧
       plan.buyPrice = roundToDecimals (decimalsOfStr "100.5") 100) ∧
     narrowedBuy ⟨100, 201/2, 1/2, 102, 99, "100.5"⟩ 1 =
       centerPrice ⟨100, 201/2, 1/2, 102, 99, "100.5"⟩ ∧
     narrowedSell ⟨100, 201/2, 1/2, 102, 99, "100.5"⟩ 1 =
       centerPrice ⟨100, 201/2, 1/2, 102, 99, "100.5"⟩ ∧
     placeSpreadOrdersPlan ⟨100, 201/2, 1/2, 102, 99, "100.5"⟩ 10 1 =
       .error (.invalidPlan
         (roundToDecimals (decimalsOfStr "100.5")
           (centerPrice ⟨100, 201/2, 1/2, 102, 99, "100.5"⟩))
         (roundToDecimals (decimalsOfStr "100.5")
           (centerPrice ⟨100, 201/2, 1/2, 102, 99, "100.5"⟩)))) := by
  have hp : ParseFloat "100.5" = .ok (201/2) := by
    have h1 : ParseFloat "100.5" =
        .ok ((((100:ℕ):ℚ) + ((5:ℕ):ℚ) / 10 ^ (1:ℕ)) * 10 ^ (0:ℕ)) := rfl
    rw [h1]
    norm_num
  have he : ∀ c ∈ ("100.5" : String).data, c ≠ 'e' ∧ c ≠ 'E' := by decide
  exact ⟨⟨by norm_num, hp, he⟩,
    planner_narrowing_extremes ⟨100, 201/2, 1/2, 102, 99, "100.5"⟩ 10
      (by norm_num) hp he⟩

/-! ## Claim C8: untradeable price shifting -/

/-- C8 counterexample: in the `src/orders.go` variant the untradeable buy
price is not the input price divided by 10 — at input price 0.0505 the
submitted price is the truncation 0.005 rather than 0.00505. -/
theorem untradeable_price_not_div_ten :
    srcPlaceLimitOrderPrice (101/2000) true true ≠ (101/2000 : ℚ) / 10 := by
  unfold srcPlaceLimitOrderPrice
  norm_num

/-- C8 amended: in the `internal/kraken` variant the untradeable buy leg is
submitted at exactly the input price divided by 10 and the sell leg at
exactly the input price multiplied by 10; in the `src/orders.go` variant
those two values are additionally truncated down to three decimal places,
so each submitted price lies within 0.001 below the respective shifted
value. -/
theorem untradeable_price_shift (price : ℚ) :
    placeLimitOrderPrice price true true = price / 10 ∧
    placeLimitOrderPrice price false true = price * 10 ∧
    price / 10 - 1/1000 < srcPlaceLimitOrderPrice price true true ∧
    srcPlaceLimitOrderPrice price true true ≤ price / 10 ∧
    price * 10 - 1/1000 < srcPlaceLimitOrderPrice price false true ∧
    srcPlaceLimitOrderPrice price false true ≤ price * 10 := by
  have hpb : placeLimitOrderPrice price true true = price * (1/10) := by
    unfold placeLimitOrderPrice
    norm_num
  have hps : placeLimitOrderPrice price false true = price * 10 := by
    unfold placeLimitOrderPrice
    norm_num
  have hsb : srcPlaceLimitOrderPrice price true true =
      ((⌊price * (1/10) * 1000⌋ : ℤ) : ℚ) / 1000 := by
    unfold srcPlaceLimitOrderPrice
    norm_num
  have hss : srcPlaceLimitOrderPrice price false true =
      ((⌊price * 10 * 1000⌋ : ℤ) : ℚ) / 1000 := by
    unfold srcPlaceLimitOrderPrice
    norm_num
  have hb1 := Int.floor_le (price * (1/10) * 1000)
  have hb2 := Int.sub_one_lt_floor (price * (1/10) * 1000)
  have hs1 := Int.floor_le (price * 10 * 1000)
  have hs2 := Int.sub_one_lt_floor (price * 10 * 1000)
  rw [hpb, hps, hsb, hss]
  refine ⟨by ring, rfl, by linarith, by linarith, by linarith, by linarith⟩

/-- Witness for C8 at the concrete input price 0.0505. -/
theorem untradeable_price_shift_witness :
    placeLimitOrderPrice (101/2000) true true = (101/2000 : ℚ) / 10 ∧
    placeLimitOrderPrice (101/2000) false true = (101/2000 : ℚ) * 10 ∧
    (101/2000 : ℚ) / 10 - 1/1000 < srcPlaceLimitOrderPrice (101/2000) true true ∧
    srcPlaceLimitOrderPrice (101/2000) true true ≤ (101/2000 : ℚ) / 10 ∧
    (101/2000 : ℚ) * 10 - 1/1000 < srcPlaceLimitOrderPrice (101/2000) false true ∧
    srcPlaceLimitOrderPrice (101/2000) false true ≤ (101/2000 : ℚ) * 10 :=
  untradeable_price_shift (101/2000)

/-! ## Claim C9: available balance computation -/

/-- C9 counterexample: with main code USD.F at balance 10 / hold 1 and alias
code ZUSD at balance 5 / hold 2, GetBalance computes available = 7, whereas
summing balance - hold_trade across both codes would give 12: the alias
code's balance does not contribute. -/
theorem getBalance_alias_balance_ignored :
    (GetBalance [("USD.F", ⟨"10", "1"⟩), ("ZUSD", ⟨"5", "2"⟩)] "USD.F" "ZUSD").map
        Balance.available = .ok 7 ∧
    ((10:ℚ) - 1) + ((5:ℚ) - 2) ≠ 7 := by
  constructor
  · have h1 : (GetBalance [("USD.F", ⟨"10", "1"⟩), ("ZUSD", ⟨"5", "2"⟩)] "USD.F" "ZUSD").map
        Balance.available =
        .ok ((((10:ℕ):ℚ) * 10 ^ (0:ℕ)) -
          ((((1:ℕ):ℚ) * 10 ^ (0:ℕ)) + (((2:ℕ):ℚ) * 10 ^ (0:ℕ)))) := rfl
    rw [h1]
    norm_num
  · norm_num

/-- C9 amended: for every balance response, main code and non-empty alias
code whose entries are present and parse, the available balance equals the
main code's balance minus the sum of the main code's and the alias code's
hold_trade amounts; the alias code's balance is not added. -/
theorem getBalance_available (body : BalanceBody) (main aliasCode : String)
    (mainB aliasB : BalanceData) (bal hold aliasHold : ℚ)
    (hmain : getCoinBalance body main = .ok mainB)
    (halias : getCoinBalance body aliasCode = .ok aliasB)
    (hne : aliasCode ≠ "")
    (hb : ParseFloat mainB.balance = .ok bal)
    (hh : ParseFloat mainB.holdTrade = .ok hold)
    (hah : ParseFloat aliasB.holdTrade = .ok aliasHold) :
    (GetBalance body main aliasCode).map Balance.available =
      .ok (bal - (hold + aliasHold)) := by
  unfold GetBalance
  simp [hmain, halias, hb, hh, hah, hne, bind, Except.bind, Functor.map, Except.map,
    pure, Except.pure]

/-- Witness for C9 at the concrete body used in the counterexample. -/
theorem getBalance_available_witness :
    (getCoinBalance [("USD.F", ⟨"10", "1"⟩), ("ZUSD", ⟨"5", "2"⟩)] "USD.F" =
        .ok ⟨"10", "1"⟩ ∧
      getCoinBalance [("USD.F", ⟨"10", "1"⟩), ("ZUSD", ⟨"5", "2"⟩)] "ZUSD" =
        .ok ⟨"5", "2"⟩ ∧
      ("ZUSD" : String) ≠ "" ∧
      ParseFloat "10" = .ok (parseFloat "10") ∧
      ParseFloat "1" = .ok (parseFloat "1") ∧
      ParseFloat "2" = .ok (parseFloat "2")) ∧
    (GetBalance [("USD.F", ⟨"10", "1"⟩), ("ZUSD", ⟨"5", "2"⟩)] "USD.F" "ZUSD").map
      Balance.available = .ok (parseFloat "10" - (parseFloat "1" + parseFloat "2")) :=
  ⟨⟨rfl, rfl, by decide, rfl, rfl, rfl⟩,
    getBalance_available _ "USD.F" "ZUSD" ⟨"10", "1"⟩ ⟨"5", "2"⟩ _ _ _
      rfl rfl (by decide) rfl rfl rfl⟩

/-! ## Supporting lemmas for the coordinator claims -/

/-- Recognizer for successful-edit events of one side. -/
def isEditSuccess (sd : Side) : Event → Bool
  | .editSuccess s _ _ => s == sd
  | _ => false

/-- Count of successful edits of one side in an event list. -/
def editSuccesses (sd : Side) (evs : List Event) : ℕ :=
  evs.countP (isEditSuccess sd)

lemma editSuccesses_nil (sd : Side) : editSuccesses sd [] = 0 := rfl

lemma editSuccesses_append (sd : Side) (l1 l2 : List Event) :
    editSuccesses sd (l1 ++ l2) = editSuccesses sd l1 + editSuccesses sd l2 :=
  List.countP_append _ _ _

/-- One-if-true potential of a flag. -/
def flagPot (b : Bool) : ℕ := if b then 1 else 0

/-- terminalCheck passes its state through unchanged. -/
lemma terminalCheck_fst (cfg : LoopConfig) (st : LoopState) (b s : OrderStatus)
    (evs : List Event) : (terminalCheck cfg st b s evs).1 = st := by
  unfold terminalCheck
  split
  · rfl
  · split <;> rfl

/-- terminalCheck passes its event list through unchanged. -/
lemma terminalCheck_evs (cfg : LoopConfig) (st : LoopState) (b s : OrderStatus)
    (evs : List Event) : (terminalCheck cfg st b s evs).2.2 = evs := by
  unfold terminalCheck
  split
  · rfl
  · split <;> rfl

/-- The outcome of terminalCheck depends only on the two order statuses and
the configuration. -/
lemma terminalCheck_out_indep (cfg : LoopConfig) (st st' : LoopState) (b s : OrderStatus)
    (evs evs' : List Event) :
    (terminalCheck cfg st b s evs).2.1 = (terminalCheck cfg st' b s evs').2.1 := by
  unfold terminalCheck
  split
  · rfl
  · split <;> rfl

/-- cycleAfterSellEdit never touches the sell-leg fields, adds no sell-edit
successes, and adds no poll events. -/
lemma cycleAfterSellEdit_sell (cfg : LoopConfig) (st : LoopState) (b s : OrderStatus)
    (inp : CycleInput) (evs : List Event) :
    ((cycleAfterSellEdit cfg st b s inp evs).1.sellOrderEdited = st.sellOrderEdited ∧
     (cycleAfterSellEdit cfg st b s inp evs).1.sellTxId = st.sellTxId) ∧
    editSuccesses .sell ((cycleAfterSellEdit cfg st b s inp evs).2.2) =
      editSuccesses .sell evs ∧
    (∀ sd tx, Event.poll sd tx ∈ (cycleAfterSellEdit cfg st b s inp evs).2.2 →
      Event.poll sd tx ∈ evs) := by
  unfold cycleAfterSellEdit
  split
  · split
    · exact ⟨⟨rfl, rfl⟩, rfl, by intro sd tx h; exact h⟩
    · split
      · refine ⟨⟨rfl, rfl⟩, ?_, ?_⟩
        · rw [editSuccesses_append]
          simp [editSuccesses, isEditSuccess]
        · intro sd tx h
          rcases List.mem_append.mp h with h1 | h1
          · exact h1
          · simp at h1
      · refine ⟨⟨by rw [terminalCheck_fst], by rw [terminalCheck_fst]⟩, ?_, ?_⟩
        · rw [terminalCheck_evs, editSuccesses_append]
          simp [editSuccesses, isEditSuccess]
        · intro sd tx h
          rw [terminalCheck_evs] at h
          rcases List.mem_append.mp h with h1 | h1
          · exact h1
          · simp at h1
  · exact ⟨⟨by rw [terminalCheck_fst], by rw [terminalCheck_fst]⟩,
      by rw [terminalCheck_evs], by intro sd tx h; rwa [terminalCheck_evs] at h⟩

/-- Potential equation for the buy-leg one-shot flag across
cycleAfterSellEdit: successful buy edits added to the event list are paid
for exactly by the flag flipping from false to true. -/
lemma cycleAfterSellEdit_buy_count (cfg : LoopConfig) (st : LoopState) (b s : OrderStatus)
    (inp : CycleInput) (evs : List Event) :
    editSuccesses .buy ((cycleAfterSellEdit cfg st b s inp evs).2.2) +
      flagPot st.buyOrderEdited =
    editSuccesses .buy evs +
      flagPot ((cycleAfterSellEdit cfg st b s inp evs).1.buyOrderEdited) := by
  unfold cycleAfterSellEdit
  split
  · next hguard =>
      split
      · rfl
      · split
        · rw [editSuccesses_append]
          simp [editSuccesses, isEditSuccess]
        · rw [terminalCheck_fst, terminalCheck_evs, editSuccesses_append]
          have hflag : st.buyOrderEdited = false := hguard.2.2.1
          rw [hflag]
          simp [editSuccesses, isEditSuccess, flagPot]
  · rw [terminalCheck_fst, terminalCheck_evs]

/-- When the buy leg has already been repriced, cycleAfterSellEdit is just
the terminal checks. -/
lemma cycleAfterSellEdit_buyEdited (cfg : LoopConfig) (st : LoopState) (b s : OrderStatus)
    (inp : CycleInput) (evs : List Event) (h : st.buyOrderEdited = true) :
    cycleAfterSellEdit cfg st b s inp evs = terminalCheck cfg st b s evs := by
  unfold cycleAfterSellEdit
  rw [if_neg]
  intro hg
  rw [h] at hg
  exact absurd hg.2.2.1 (by simp)

/-- Potential equation for the sell-leg one-shot flag across one cycle. -/
lemma cycle_sell_count (cfg : LoopConfig) (st : LoopState) (inp : CycleInput) :
    editSuccesses .sell (cycle cfg st inp).2.2 + flagPot st.sellOrderEdited =
      flagPot ((cycle cfg st inp).1.sellOrderEdited) := by
  unfold cycle
  split
  · simp [editSuccesses, isEditSuccess]
  · split
    · simp [editSuccesses, isEditSuccess]
    · split
      · next hguard =>
          split
          · simp [editSuccesses, isEditSuccess]
          · split
            · rw [editSuccesses_append]
              simp [editSuccesses, isEditSuccess, hguard.2.2.1]
            · obtain ⟨⟨hf, _⟩, hc, _⟩ := cycleAfterSellEdit_sell cfg _ _ _ inp _
              rw [hc, hf, editSuccesses_append, hguard.2.2.1]
              simp [editSuccesses, isEditSuccess, flagPot]
      · obtain ⟨⟨hf, _⟩, hc, _⟩ := cycleAfterSellEdit_sell cfg st _ _ inp _
        rw [hc, hf]
        simp [editSuccesses, isEditSuccess]

/-- Potential equation for the buy-leg one-shot flag across one cycle. -/
lemma cycle_buy_count (cfg : LoopConfig) (st : LoopState) (inp : CycleInput) :
    editSuccesses .buy (cycle cfg st inp).2.2 + flagPot st.buyOrderEdited =
      flagPot ((cycle cfg st inp).1.buyOrderEdited) := by
  unfold cycle
  split
  · simp [editSuccesses, isEditSuccess]
  · next buyOrder hbo =>
    split
    · simp [editSuccesses, isEditSuccess]
    · next sellOrder hso =>
      split
      · split
        · simp [editSuccesses, isEditSuccess]
        · next p hp =>
          split
          · rw [editSuccesses_append]
            simp [editSuccesses, isEditSuccess]
          · next newTx hnt =>
            have hbc := cycleAfterSellEdit_buy_count cfg
              { st with sellTxId := newTx, sellOrderEdited := true } buyOrder sellOrder inp
              ([Event.poll .buy st.buyTxId, Event.poll .sell st.sellTxId] ++
                [.editRequest .sell st.sellTxId (p * (1 + profitPercent)) cfg.volume,
                 .editSuccess .sell st.sellTxId newTx])
            rw [hbc, editSuccesses_append]
            simp [editSuccesses, isEditSuccess]
      · have hbc := cycleAfterSellEdit_buy_count cfg st buyOrder sellOrder inp
          [Event.poll .buy st.buyTxId, Event.poll .sell st.sellTxId]
        rw [hbc]
        simp [editSuccesses, isEditSuccess]

/-- Once the sell-leg repriced flag is set, a cycle keeps it set, keeps the
sell transaction id, and only ever polls the sell leg at that id. -/
lemma cycle_sell_stable (cfg : LoopConfig) (st : LoopState) (inp : CycleInput)
    (h : st.sellOrderEdited = true) :
    (cycle cfg st inp).1.sellOrderEdited = true ∧
    (cycle cfg st inp).1.sellTxId = st.sellTxId ∧
    (∀ tx, Event.poll .sell tx ∈ (cycle cfg st inp).2.2 → tx = st.sellTxId) := by
  unfold cycle
  split
  · exact ⟨h, rfl, by intro tx htx; simp at htx⟩
  · split
    · refine ⟨h, rfl, ?_⟩
      intro tx htx
      simp at htx
      exact htx
    · split
      · next hguard =>
          rw [h] at hguard
          exact absurd hguard.2.2.1 (by simp)
      · obtain ⟨⟨hf, ht⟩, _, hpoll⟩ := cycleAfterSellEdit_sell cfg st _ _ inp _
        refine ⟨by rw [hf]; exact h, ht, ?_⟩
        intro tx htx
        have := hpoll .sell tx htx
        simp at this
        exact this

/-- Once the buy-leg repriced flag is set, a cycle keeps it set, keeps the
buy transaction id, and only ever polls the buy leg at that id. -/
lemma cycle_buy_stable (cfg : LoopConfig) (st : LoopState) (inp : CycleInput)
    (h : st.buyOrderEdited = true) :
    (cycle cfg st inp).1.buyOrderEdited = true ∧
    (cycle cfg st inp).1.buyTxId = st.buyTxId ∧
    (∀ tx, Event.poll .buy tx ∈ (cycle cfg st inp).2.2 → tx = st.buyTxId) := by
  unfold cycle
  split
  · refine ⟨h, rfl, ?_⟩
    intro tx htx
    simp at htx
    exact htx
  · split
    · refine ⟨h, rfl, ?_⟩
      intro tx htx
      simp at htx
      exact htx
    · split
      · split
        · refine ⟨h, rfl, ?_⟩
          intro tx htx
          simp at htx
          exact htx
        · split
          · refine ⟨h, rfl, ?_⟩
            intro tx htx
            simp at htx
            exact htx
          · rw [cycleAfterSellEdit_buyEdited cfg _ _ _ inp _ (by exact h)]
            rw [terminalCheck_fst, terminalCheck_evs]
            refine ⟨h, rfl, ?_⟩
            intro tx htx
            simp at htx
            exact htx
      · rw [cycleAfterSellEdit_buyEdited cfg st _ _ inp _ h]
        rw [terminalCheck_fst, terminalCheck_evs]
        refine ⟨h, rfl, ?_⟩
        intro tx htx
        simp at htx
        exact htx

/-- Potential equation for the sell-leg flag across a whole run. -/
lemma runLoop_sell_count (cfg : LoopConfig) (st : LoopState) (tr : List CycleInput) :
    editSuccesses .sell (runLoop cfg st tr).2.2 + flagPot st.sellOrderEdited =
      flagPot ((runLoop cfg st tr).1.sellOrderEdited) := by
  induction tr generalizing st with
  | nil => simp [runLoop, editSuccesses]
  | cons inp rest ih =>
      have hcy := cycle_sell_count cfg st inp
      unfold runLoop
      rcases hc : cycle cfg st inp with ⟨st', out, evs⟩
      rw [hc] at hcy
      cases out with
      | some o =>
          simpa using hcy
      | none =>
          have h2 := ih st'
          simp only [editSuccesses_append]
          simp only at hcy h2 ⊢
          omega

/-- Potential equation for the buy-leg flag across a whole run. -/
lemma runLoop_buy_count (cfg : LoopConfig) (st : LoopState) (tr : List CycleInput) :
    editSuccesses .buy (runLoop cfg st tr).2.2 + flagPot st.buyOrderEdited =
      flagPot ((runLoop cfg st tr).1.buyOrderEdited) := by
  induction tr generalizing st with
  | nil => simp [runLoop, editSuccesses]
  | cons inp rest ih =>
      have hcy := cycle_buy_count cfg st inp
      unfold runLoop
      rcases hc : cycle cfg st inp with ⟨st', out, evs⟩
      rw [hc] at hcy
      cases out with
      | some o =>
          simpa using hcy
      | none =>
          have h2 := ih st'
          simp only [editSuccesses_append]
          simp only at hcy h2 ⊢
          omega

/-- Once the sell-leg repriced flag is set, a whole run keeps the sell
transaction id and polls the sell leg only at that id. -/
lemma runLoop_sell_stable (cfg : LoopConfig) (st : LoopState) (tr : List CycleInput)
    (h : st.sellOrderEdited = true) :
    (runLoop cfg st tr).1.sellTxId = st.sellTxId ∧
    (∀ tx, Event.poll .sell tx ∈ (runLoop cfg st tr).2.2 → tx = st.sellTxId) := by
  induction tr generalizing st with
  | nil => exact ⟨rfl, by intro tx htx; simp [runLoop] at htx⟩
  | cons inp rest ih =>
      have hcy := cycle_sell_stable cfg st inp h
      unfold runLoop
      rcases hc : cycle cfg st inp with ⟨st', out, evs⟩
      rw [hc] at hcy
      obtain ⟨hf, ht, hpoll⟩ := hcy
      cases out with
      | some o => exact ⟨ht, hpoll⟩
      | none =>
          obtain ⟨iht, ihp⟩ := ih st' hf
          refine ⟨by rw [iht, ht], ?_⟩
          intro tx htx
          simp only [List.mem_append] at htx
          rcases htx with h1 | h1
          · exact hpoll tx h1
          · rw [← ht]
            exact ihp tx h1

/-- Once the buy-leg repriced flag is set, a whole run keeps the buy
transaction id and polls the buy leg only at that id. -/
lemma runLoop_buy_stable (cfg : LoopConfig) (st : LoopState) (tr : List CycleInput)
    (h : st.buyOrderEdited = true) :
    (runLoop cfg st tr).1.buyTxId = st.buyTxId ∧
    (∀ tx, Event.poll .buy tx ∈ (runLoop cfg st tr).2.2 → tx = st.buyTxId) := by
  induction tr generalizing st with
  | nil => exact ⟨rfl, by intro tx htx; simp [runLoop] at htx⟩
  | cons inp rest ih =>
      have hcy := cycle_buy_stable cfg st inp h
      unfold runLoop
      rcases hc : cycle cfg st inp with ⟨st', out, evs⟩
      rw [hc] at hcy
      obtain ⟨hf, ht, hpoll⟩ := hcy
      cases out with
      | some o => exact ⟨ht, hpoll⟩
      | none =>
          obtain ⟨iht, ihp⟩ := ih st' hf
          refine ⟨by rw [iht, ht], ?_⟩
          intro tx htx
          simp only [List.mem_append] at htx
          rcases htx with h1 | h1
          · exact hpoll tx h1
          · rw [← ht]
            exact ihp tx h1

/-- terminalCheck outcome when neither terminal status pair holds. -/
lemma terminalCheck_out_none (cfg : LoopConfig) (st : LoopState) (b s : OrderStatus)
    (evs : List Event)
    (h1 : ¬(b.status = "closed" ∧ s.status = "closed"))
    (h2 : ¬(b.status = "canceled" ∧ s.status = "canceled")) :
    (terminalCheck cfg st b s evs).2.1 = none := by
  unfold terminalCheck
  rw [if_neg h1, if_neg h2]

/-- terminalCheck outcome when both legs are closed. -/
lemma terminalCheck_out_filled (cfg : LoopConfig) (st : LoopState) (b s : OrderStatus)
    (evs : List Event) (h : b.status = "closed" ∧ s.status = "closed") :
    (terminalCheck cfg st b s evs).2.1 = some (.filled
      ((parseFloat s.descr.price - parseFloat b.descr.price) * cfg.volume)
      ((parseFloat s.descr.price - parseFloat b.descr.price) / parseFloat b.descr.price * 100)
      (parseFloat b.fee + parseFloat s.fee)) := by
  unfold terminalCheck
  rw [if_pos h]

/-- terminalCheck outcome when both legs are canceled. -/
lemma terminalCheck_out_canceled (cfg : LoopConfig) (st : LoopState) (b s : OrderStatus)
    (evs : List Event) (h : b.status = "canceled" ∧ s.status = "canceled") :
    (terminalCheck cfg st b s evs).2.1 =
      some (.canceled cfg.estimatedProfit cfg.estimatedPercentGain) := by
  unfold terminalCheck
  rw [if_neg, if_pos h]
  intro hc
  rw [hc.1] at h
  exact absurd h.1 (by decide)

/-- The outcome of cycleAfterSellEdit coincides with the terminal checks on
its two polled orders. -/
lemma cycleAfterSellEdit_out (cfg : LoopConfig) (st : LoopState) (b s : OrderStatus)
    (inp : CycleInput) (evs : List Event) :
    (cycleAfterSellEdit cfg st b s inp evs).2.1 = (terminalCheck cfg st b s []).2.1 := by
  unfold cycleAfterSellEdit
  split
  · next hg =>
      have hnone : (terminalCheck cfg st b s ([] : List Event)).2.1 = none := by
        refine terminalCheck_out_none cfg st b s [] ?_ ?_
        · intro hc
          rw [hg.2.1] at hc
          exact absurd hc.1 (by decide)
        · intro hc
          rw [hg.1] at hc
          exact absurd hc.2 (by decide)
      split
      · exact hnone.symm
      · split
        · exact hnone.symm
        · exact terminalCheck_out_indep cfg _ st b s _ []
  · exact terminalCheck_out_indep cfg st st b s evs []

/-- The outcome of one cycle with two successful status queries coincides
with the terminal checks on the two polled orders. -/
lemma cycle_out (cfg : LoopConfig) (st : LoopState) (inp : CycleInput) (b s : OrderStatus)
    (hb : inp.buyCheck = .ok b) (hs : inp.sellCheck = .ok s) :
    (cycle cfg st inp).2.1 = (terminalCheck cfg st b s []).2.1 := by
  unfold cycle
  simp only [hb, hs]
  split
  · next hg =>
      have hnone : (terminalCheck cfg st b s ([] : List Event)).2.1 = none := by
        refine terminalCheck_out_none cfg st b s [] ?_ ?_
        · intro hc
          rw [hg.2.1] at hc
          exact absurd hc.2 (by decide)
        · intro hc
          rw [hg.1] at hc
          exact absurd hc.1 (by decide)
      split
      · exact hnone.symm
      · split
        · exact hnone.symm
        · rw [cycleAfterSellEdit_out]
          exact terminalCheck_out_indep cfg _ st b s [] []
  · rw [cycleAfterSellEdit_out]

/-! ## Claim C1: repricing is at-most-once per leg -/

/-- C1: over any whole run of the polling loop started with both repriced
flags clear, each leg's order is successfully edited at most once, because
the per-leg flag is set only when the edit request succeeds; and a failed
edit leaves the state unchanged (the flag unset) with the edit request
emitted, so the same observation on the next cycle retries the edit. -/
theorem repricing_at_most_once (cfg : LoopConfig) (st : LoopState) (trace : List CycleInput)
    (hs0 : st.sellOrderEdited = false) (hb0 : st.buyOrderEdited = false) :
    editSuccesses .sell (runLoop cfg st trace).2.2 ≤ 1 ∧
    editSuccesses .buy (runLoop cfg st trace).2.2 ≤ 1 ∧
    (∀ (st' : LoopState) (inp : CycleInput) (b s : OrderStatus) (p : ℚ) (e : String),
      inp.buyCheck = .ok b → inp.sellCheck = .ok s →
      b.status = "closed" → s.status = "open" →
      st'.sellOrderEdited = false → cfg.editOrder = true →
      ParseFloat b.descr.price = .ok p → inp.editResult = .error e →
      cycle cfg st' inp = (st', none,
        [.poll .buy st'.buyTxId, .poll .sell st'.sellTxId,
         .editRequest .sell st'.sellTxId (p * (1 + profitPercent)) cfg.volume])) := by
  refine ⟨?_, ?_, ?_⟩
  · have h := runLoop_sell_count cfg st trace
    rw [hs0] at h
    have hle : flagPot ((runLoop cfg st trace).1.sellOrderEdited) ≤ 1 := by
      unfold flagPot
      split <;> omega
    have hz : flagPot false = 0 := rfl
    omega
  · have h := runLoop_buy_count cfg st trace
    rw [hb0] at h
    have hle : flagPot ((runLoop cfg st trace).1.buyOrderEdited) ≤ 1 := by
      unfold flagPot
      split <;> omega
    have hz : flagPot false = 0 := rfl
    omega
  · intro st' inp b s p e hb hsc hbc hso hflag hedit hp he
    unfold cycle
    simp only [hb, hsc]
    rw [if_pos ⟨hbc, hso, hflag, hedit⟩]
    simp only [hp, he]
    rfl

/-- Witness for C1: a two-cycle trace in which the buy leg is closed, the
sell leg open, and the edit fails; both count bounds and the retry equation
apply. -/
theorem repricing_at_most_once_witness :
    ((⟨"B1", "S1", false, false⟩ : LoopState).sellOrderEdited = false ∧
     (⟨"B1", "S1", false, false⟩ : LoopState).buyOrderEdited = false) ∧
    (editSuccesses .sell
        (runLoop ⟨10, true, 10, 1⟩ ⟨"B1", "S1", false, false⟩
          [⟨.ok ⟨"closed", ⟨"", "buy", "99.5", "SOLUSD"⟩, "10", "10", "", "1"⟩,
            .ok ⟨"open", ⟨"", "sell", "101", "SOLUSD"⟩, "10", "0", "", "0"⟩,
            .error "EGeneral"⟩]).2.2 ≤ 1 ∧
     editSuccesses .buy
        (runLoop ⟨10, true, 10, 1⟩ ⟨"B1", "S1", false, false⟩
          [⟨.ok ⟨"closed", ⟨"", "buy", "99.5", "SOLUSD"⟩, "10", "10", "", "1"⟩,
            .ok ⟨"open", ⟨"", "sell", "101", "SOLUSD"⟩, "10", "0", "", "0"⟩,
            .error "EGeneral"⟩]).2.2 ≤ 1 ∧
     (∀ (st' : LoopState) (inp : CycleInput) (b s : OrderStatus) (p : ℚ) (e : String),
        inp.buyCheck = .ok b → inp.sellCheck = .ok s →
        b.status = "closed" → s.status = "open" →
        st'.sellOrderEdited = false → (⟨10, true, 10, 1⟩ : LoopConfig).editOrder = true →
        ParseFloat b.descr.price = .ok p → inp.editResult = .error e →
        cycle ⟨10, true, 10, 1⟩ st' inp = (st', none,
          [.poll .buy st'.buyTxId, .poll .sell st'.sellTxId,
           .editRequest .sell st'.sellTxId (p * (1 + profitPercent))
             (⟨10, true, 10, 1⟩ : LoopConfig).volume]))) :=
  ⟨⟨rfl, rfl⟩,
    repricing_at_most_once ⟨10, true, 10, 1⟩ ⟨"B1", "S1", false, false⟩
      [⟨.ok ⟨"closed", ⟨"", "buy", "99.5", "SOLUSD"⟩, "10", "10", "", "1"⟩,
        .ok ⟨"open", ⟨"", "sell", "101", "SOLUSD"⟩, "10", "0", "", "0"⟩,
        .error "EGeneral"⟩] rfl rfl⟩

/-! ## Claim C2: terminal detection is exhaustive and mutually exclusive -/

/-- C2: in every cycle whose two status queries succeed, exactly one of
continue polling, Filled or Canceled is selected: both legs closed always
yields Filled with realized profit `(sellPrice - buyPrice) * volume`, gain
percent relative to the buy price and fees the sum of the two legs' fee
fields; both legs canceled always yields Canceled with the pre-trade
estimate; every other status pair continues polling; and the two terminal
conditions cannot hold together. -/
theorem terminal_detection (cfg : LoopConfig) (st : LoopState) (inp : CycleInput)
    (b s : OrderStatus) (hb : inp.buyCheck = .ok b) (hsc : inp.sellCheck = .ok s) :
    ((b.status = "closed" ∧ s.status = "closed") →
      (cycle cfg st inp).2.1 = some (.filled
        ((parseFloat s.descr.price - parseFloat b.descr.price) * cfg.volume)
        ((parseFloat s.descr.price - parseFloat b.descr.price) / parseFloat b.descr.price * 100)
        (parseFloat b.fee + parseFloat s.fee))) ∧
    ((b.status = "canceled" ∧ s.status = "canceled") →
      (cycle cfg st inp).2.1 =
        some (.canceled cfg.estimatedProfit cfg.estimatedPercentGain)) ∧
    (¬(b.status = "closed" ∧ s.status = "closed") →
     ¬(b.status = "canceled" ∧ s.status = "canceled") →
      (cycle cfg st inp).2.1 = none) ∧
    ¬((b.status = "closed" ∧ s.status = "closed") ∧
      (b.status = "canceled" ∧ s.status = "canceled")) := by
  refine ⟨?_, ?_, ?_, ?_⟩
  · intro h
    rw [cycle_out cfg st inp b s hb hsc]
    exact terminalCheck_out_filled cfg st b s [] h
  · intro h
    rw [cycle_out cfg st inp b s hb hsc]
    exact terminalCheck_out_canceled cfg st b s [] h
  · intro h1 h2
    rw [cycle_out cfg st inp b s hb hsc]
    exact terminalCheck_out_none cfg st b s [] h1 h2
  · intro h
    rw [h.1.1] at h
    exact absurd h.2.1 (by decide)

/-- Witness for C2 with both legs closed. -/
theorem terminal_detection_witness :
    ((⟨.ok ⟨"closed", ⟨"", "buy", "100", "SOLUSD"⟩, "10", "10", "", "1"⟩,
       .ok ⟨"closed", ⟨"", "sell", "101", "SOLUSD"⟩, "10", "10", "", "2"⟩,
       .error "x"⟩ : CycleInput).buyCheck =
        .ok ⟨"closed", ⟨"", "buy", "100", "SOLUSD"⟩, "10", "10", "", "1"⟩ ∧
     (⟨.ok ⟨"closed", ⟨"", "buy", "100", "SOLUSD"⟩, "10", "10", "", "1"⟩,
       .ok ⟨"closed", ⟨"", "sell", "101", "SOLUSD"⟩, "10", "10", "", "2"⟩,
       .error "x"⟩ : CycleInput).sellCheck =
        .ok ⟨"closed", ⟨"", "sell", "101", "SOLUSD"⟩, "10", "10", "", "2"⟩) ∧
    (((⟨"closed", ⟨"", "buy", "100", "SOLUSD"⟩, "10", "10", "", "1"⟩ : OrderStatus).status = "closed" ∧
      (⟨"closed", ⟨"", "sell", "101", "SOLUSD"⟩, "10", "10", "", "2"⟩ : OrderStatus).status = "closed") →
      (cycle ⟨10, false, 10, 1⟩ ⟨"B1", "S1", false, false⟩
        ⟨.ok ⟨"closed", ⟨"", "buy", "100", "SOLUSD"⟩, "10", "10", "", "1"⟩,
         .ok ⟨"closed", ⟨"", "sell", "101", "SOLUSD"⟩, "10", "10", "", "2"⟩,
         .error "x"⟩).2.1 = some (.filled
          ((parseFloat "101" - parseFloat "100") * (10:ℚ))
          ((parseFloat "101" - parseFloat "100") / parseFloat "100" * 100)
          (parseFloat "1" + parseFloat "2"))) :=
  ⟨⟨rfl, rfl⟩,
    (terminal_detection ⟨10, false, 10, 1⟩ ⟨"B1", "S1", false, false⟩
      ⟨.ok ⟨"closed", ⟨"", "buy", "100", "SOLUSD"⟩, "10", "10", "", "1"⟩,
       .ok ⟨"closed", ⟨"", "sell", "101", "SOLUSD"⟩, "10", "10", "", "2"⟩,
       .error "x"⟩
      ⟨"closed", ⟨"", "buy", "100", "SOLUSD"⟩, "10", "10", "", "1"⟩
      ⟨"closed", ⟨"", "sell", "101", "SOLUSD"⟩, "10", "10", "", "2"⟩ rfl rfl).1⟩

/-! ## Claim C6: the reprice formula and transaction-id replacement -/

/-- C6: when exactly one leg is closed and the other open, repricing is
enabled and not yet performed, the edit request prices the still-open leg at
the closed leg's executed price times `1 + profitPercent` (closed buy leg)
or `1 - profitPercent` (closed sell leg), and a successful edit replaces the
leg's transaction id with the id returned by the exchange and sets the
one-shot flag; once a leg's flag is set, every later poll of that leg uses
the replaced transaction id, so an old id different from it is never polled
again. -/
theorem reprice_formula_and_txid (cfg : LoopConfig) :
    (∀ (st : LoopState) (inp : CycleInput) (b s : OrderStatus) (p : ℚ) (newTx : String),
      inp.buyCheck = .ok b → inp.sellCheck = .ok s →
      b.status = "closed" → s.status = "open" →
      st.sellOrderEdited = false → cfg.editOrder = true →
      ParseFloat b.descr.price = .ok p → inp.editResult = .ok newTx →
      cycle cfg st inp = ({ st with sellTxId := newTx, sellOrderEdited := true }, none,
        [.poll .buy st.buyTxId, .poll .sell st.sellTxId,
         .editRequest .sell st.sellTxId (p * (1 + profitPercent)) cfg.volume,
         .editSuccess .sell st.sellTxId newTx])) ∧
    (∀ (st : LoopState) (inp : CycleInput) (b s : OrderStatus) (q : ℚ) (newTx : String),
      inp.buyCheck = .ok b → inp.sellCheck = .ok s →
      s.status = "closed" → b.status = "open" →
      st.buyOrderEdited = false → cfg.editOrder = true →
      ParseFloat s.descr.price = .ok q → inp.editResult = .ok newTx →
      cycle cfg st inp = ({ st with buyTxId := newTx, buyOrderEdited := true }, none,
        [.poll .buy st.buyTxId, .poll .sell st.sellTxId,
         .editRequest .buy st.buyTxId (q * (1 - profitPercent)) cfg.volume,
         .editSuccess .buy st.buyTxId newTx])) ∧
    (∀ (st : LoopState) (trace : List CycleInput) (tx : String),
      st.sellOrderEdited = true →
      Event.poll .sell tx ∈ (runLoop cfg st trace).2.2 → tx = st.sellTxId) ∧
    (∀ (st : LoopState) (trace : List CycleInput) (tx : String),
      st.buyOrderEdited = true →
      Event.poll .buy tx ∈ (runLoop cfg st trace).2.2 → tx = st.buyTxId) := by
  refine ⟨?_, ?_, ?_, ?_⟩
  · intro st inp b s p newTx hb hsc hbc hso hflag hedit hp hok
    unfold cycle
    simp only [hb, hsc]
    rw [if_pos ⟨hbc, hso, hflag, hedit⟩]
    simp only [hp, hok]
    unfold cycleAfterSellEdit
    rw [if_neg (by intro hg; rw [hso] at hg; exact absurd hg.1 (by decide))]
    unfold terminalCheck
    rw [if_neg (by intro hc; rw [hso] at hc; exact absurd hc.2 (by decide)),
      if_neg (by intro hc; rw [hbc] at hc; exact absurd hc.1 (by decide))]
    rfl
  · intro st inp b s q newTx hb hsc hsclosed hbopen hflag hedit hq hok
    unfold cycle
    simp only [hb, hsc]
    rw [if_neg (by intro hg; rw [hbopen] at hg; exact absurd hg.1 (by decide))]
    unfold cycleAfterSellEdit
    rw [if_pos ⟨hsclosed, hbopen, hflag, hedit⟩]
    simp only [hq, hok]
    unfold terminalCheck
    rw [if_neg (by intro hc; rw [hbopen] at hc; exact absurd hc.1 (by decide)),
      if_neg (by intro hc; rw [hsclosed] at hc; exact absurd hc.2 (by decide))]
    rfl
  · intro st trace tx hflag hmem
    exact (runLoop_sell_stable cfg st trace hflag).2 tx hmem
  · intro st trace tx hflag hmem
    exact (runLoop_buy_stable cfg st trace hflag).2 tx hmem

/-- Witness for C6: the sell-direction reprice at a closed buy order with
executed price string "99.5" and a successful edit returning "S2". -/
theorem reprice_formula_and_txid_witness :
    ((⟨.ok ⟨"closed", ⟨"", "buy", "99.5", "SOLUSD"⟩, "10", "10", "", "1"⟩,
       .ok ⟨"open", ⟨"", "sell", "101", "SOLUSD"⟩, "10", "0", "", "0"⟩,
       .ok "S2"⟩ : CycleInput).buyCheck =
        .ok ⟨"closed", ⟨"", "buy", "99.5", "SOLUSD"⟩, "10", "10", "", "1"⟩ ∧
      (⟨"B1", "S1", false, false⟩ : LoopState).sellOrderEdited = false ∧
      ParseFloat "99.5" = .ok (parseFloat "99.5")) ∧
    cycle ⟨10, true, 10, 1⟩ ⟨"B1", "S1", false, false⟩
      ⟨.ok ⟨"closed", ⟨"", "buy", "99.5", "SOLUSD"⟩, "10", "10", "", "1"⟩,
       .ok ⟨"open", ⟨"", "sell", "101", "SOLUSD"⟩, "10", "0", "", "0"⟩,
       .ok "S2"⟩ =
      ({ (⟨"B1", "S1", false, false⟩ : LoopState) with
          sellTxId := "S2", sellOrderEdited := true }, none,
        [.poll .buy "B1", .poll .sell "S1",
         .editRequest .sell "S1" (parseFloat "99.5" * (1 + profitPercent)) 10,
         .editSuccess .sell "S1" "S2"]) :=
  ⟨⟨rfl, rfl, rfl⟩,
    (reprice_formula_and_txid ⟨10, true, 10, 1⟩).1
      ⟨"B1", "S1", false, false⟩
      ⟨.ok ⟨"closed", ⟨"", "buy", "99.5", "SOLUSD"⟩, "10", "10", "", "1"⟩,
       .ok ⟨"open", ⟨"", "sell", "101", "SOLUSD"⟩, "10", "0", "", "0"⟩,
       .ok "S2"⟩
      ⟨"closed", ⟨"", "buy", "99.5", "SOLUSD"⟩, "10", "10", "", "1"⟩
      ⟨"open", ⟨"", "sell", "101", "SOLUSD"⟩, "10", "0", "", "0"⟩
      (parseFloat "99.5") "S2" rfl rfl rfl rfl rfl rfl rfl rfl⟩

/-! ## Claim C10: total string-to-float parsing with zero default -/

/-- C10: the error-discarding parseFloat helper returns 0 for every string
that fails to parse, and consequently a cycle that observes both legs
closed always produces the Filled outcome, with a malformed buy-fee string
contributing 0 to the total fees. -/
theorem parseFloat_zero_default (cfg : LoopConfig) :
    (∀ s, (ParseFloat s).isOk = false → parseFloat s = 0) ∧
    (∀ (st : LoopState) (inp : CycleInput) (b s : OrderStatus),
      inp.buyCheck = .ok b → inp.sellCheck = .ok s →
      b.status = "closed" → s.status = "closed" →
      (ParseFloat b.fee).isOk = false →
      (cycle cfg st inp).2.1 = some (.filled
        ((parseFloat s.descr.price - parseFloat b.descr.price) * cfg.volume)
        ((parseFloat s.descr.price - parseFloat b.descr.price) / parseFloat b.descr.price * 100)
        (0 + parseFloat s.fee))) := by
  have hzero : ∀ s, (ParseFloat s).isOk = false → parseFloat s = 0 := by
    intro s h
    unfold parseFloat
    cases h2 : ParseFloat s with
    | ok a => rw [h2] at h; exact absurd h (by simp [Except.isOk, Except.toBool])
    | error e => rfl
  refine ⟨hzero, ?_⟩
  intro st inp b s hb hsc hbc hsclosed hfee
  rw [cycle_out cfg st inp b s hb hsc,
    terminalCheck_out_filled cfg st b s [] ⟨hbc, hsclosed⟩, hzero b.fee hfee]

/-- Witness for C10 at a malformed buy-fee string. -/
theorem parseFloat_zero_default_witness :
    ((ParseFloat "bogus").isOk = false ∧
     (⟨.ok ⟨"closed", ⟨"", "buy", "100", "SOLUSD"⟩, "10", "10", "", "bogus"⟩,
       .ok ⟨"closed", ⟨"", "sell", "101", "SOLUSD"⟩, "10", "10", "", "2"⟩,
       .error "x"⟩ : CycleInput).buyCheck =
        .ok ⟨"closed", ⟨"", "buy", "100", "SOLUSD"⟩, "10", "10", "", "bogus"⟩) ∧
    (parseFloat "bogus" = 0 ∧
     (cycle ⟨10, false, 10, 1⟩ ⟨"B1", "S1", false, false⟩
        ⟨.ok ⟨"closed", ⟨"", "buy", "100", "SOLUSD"⟩, "10", "10", "", "bogus"⟩,
         .ok ⟨"closed", ⟨"", "sell", "101", "SOLUSD"⟩, "10", "10", "", "2"⟩,
         .error "x"⟩).2.1 = some (.filled
          ((parseFloat "101" - parseFloat "100") * (10:ℚ))
          ((parseFloat "101" - parseFloat "100") / parseFloat "100" * 100)
          (0 + parseFloat "2"))) :=
  ⟨⟨by decide, rfl⟩,
    ⟨(parseFloat_zero_default ⟨10, false, 10, 1⟩).1 "bogus" (by decide),
      (parseFloat_zero_default ⟨10, false, 10, 1⟩).2
        ⟨"B1", "S1", false, false⟩
        ⟨.ok ⟨"closed", ⟨"", "buy", "100", "SOLUSD"⟩, "10", "10", "", "bogus"⟩,
         .ok ⟨"closed", ⟨"", "sell", "101", "SOLUSD"⟩, "10", "10", "", "2"⟩,
         .error "x"⟩
        ⟨"closed", ⟨"", "buy", "100", "SOLUSD"⟩, "10", "10", "", "bogus"⟩
        ⟨"closed", ⟨"", "sell", "101", "SOLUSD"⟩, "10", "10", "", "2"⟩
        rfl rfl rfl rfl (by decide)⟩⟩

/-! ## Supporting lemmas for the watchdog claims -/

/-- One supervised step never resets the canceled flag and, once the flag is
set, never starts another trading iteration. -/
lemma supStep_canceled_mono (limitPrice : ℚ) (coinCode : String) (s : SupState)
    (a : SupAction) (h : s.canceled = true) :
    (supStep limitPrice coinCode s a).canceled = true ∧
    (supStep limitPrice coinCode s a).itersRun = s.itersRun := by
  cases a with
  | loopCheck ok =>
      simp only [supStep]
      split
      · exact ⟨h, rfl⟩
      · exact ⟨h, rfl⟩
  | monTick env =>
      simp only [supStep]
      split
      · exact ⟨h, rfl⟩
      · simp [h]

/-- Recognizer for CancelAllOrders requests. -/
def isCancelAll : MEvent → Bool
  | .cancelAll => true
  | _ => false

/-- Recognizer for exit sell-order submissions. -/
def isPlaceSell : MEvent → Bool
  | .placeSellOrder _ _ => true
  | _ => false

/-- The balance-and-liquidate tail of a breach tick: it keeps the flag set,
sends no further cancellations, sends at most one exit order, and any exit
order it adds is priced at the current bid. -/
lemma monitorTickBalance_spec (coinCode : String) (currentPrice : ℚ) (env : MonitorEnv)
    (evs : List MEvent) :
    (monitorTickBalance coinCode currentPrice env evs).flagSet = true ∧
    (monitorTickBalance coinCode currentPrice env evs).events.countP isCancelAll =
      evs.countP isCancelAll ∧
    (monitorTickBalance coinCode currentPrice env evs).events.countP isPlaceSell ≤
      evs.countP isPlaceSell + 1 ∧
    (∀ p v, MEvent.placeSellOrder p v ∈ (monitorTickBalance coinCode currentPrice env evs).events →
      MEvent.placeSellOrder p v ∈ evs ∨ p = currentPrice) := by
  unfold monitorTickBalance
  split
  · refine ⟨rfl, ?_, ?_, ?_⟩
    · rw [List.countP_append]
      simp [isCancelAll]
    · rw [List.countP_append]
      simp [isPlaceSell]
    · intro p v hmem
      rcases List.mem_append.mp hmem with h1 | h1
      · exact Or.inl h1
      · simp at h1
  · split
    · refine ⟨rfl, ?_, ?_, ?_⟩
      · rw [List.countP_append]
        simp [isCancelAll]
      · rw [List.countP_append]
        simp [isPlaceSell]
      · intro p v hmem
        rcases List.mem_append.mp hmem with h1 | h1
        · exact Or.inl h1
        · simp at h1
    · split
      · refine ⟨rfl, ?_, ?_, ?_⟩
        · rw [List.countP_append]
          simp [isCancelAll]
        · rw [List.countP_append]
          simp [isPlaceSell]
        · intro p v hmem
          rcases List.mem_append.mp hmem with h1 | h1
          · exact Or.inl h1
          · simp at h1
            exact Or.inr h1.1
      · refine ⟨rfl, ?_, ?_, ?_⟩
        · rw [List.countP_append]
          simp [isCancelAll]
        · rw [List.countP_append]
          simp [isPlaceSell]
        · intro p v hmem
          rcases List.mem_append.mp hmem with h1 | h1
          · exact Or.inl h1
          · simp at h1

/-! ## Claim C4: watchdog cancellation is monotonic -/

/-- C4: once the shared canceled flag is true, no interleaving of further
loop checks and watchdog ticks ever resets it, and the iteration loop starts
no further trading iteration. -/
theorem watchdog_cancellation_monotonic (limitPrice : ℚ) (coinCode : String)
    (s : SupState) (trace : List SupAction) (h : s.canceled = true) :
    (supRun limitPrice coinCode s trace).canceled = true ∧
    (supRun limitPrice coinCode s trace).itersRun = s.itersRun := by
  induction trace generalizing s with
  | nil => exact ⟨h, rfl⟩
  | cons a rest ih =>
      obtain ⟨h1, h2⟩ := supStep_canceled_mono limitPrice coinCode s a h
      unfold supRun
      obtain ⟨h3, h4⟩ := ih (supStep limitPrice coinCode s a) h1
      exact ⟨h3, by rw [h4, h2]⟩

/-- Witness for C4: a canceled state followed by one loop check and one
watchdog tick. -/
theorem watchdog_cancellation_monotonic_witness :
    (⟨true, false, 3, 7, false⟩ : SupState).canceled = true ∧
    ((supRun 105 "SOL" ⟨true, false, 3, 7, false⟩
        [.loopCheck true,
         .monTick ⟨.error "net", .error "net", .error "net", .error "net",
           .error "net", .error "net", .error "net", .error "net"⟩]).canceled = true ∧
     (supRun 105 "SOL" ⟨true, false, 3, 7, false⟩
        [.loopCheck true,
         .monTick ⟨.error "net", .error "net", .error "net", .error "net",
           .error "net", .error "net", .error "net", .error "net"⟩]).itersRun =
       (⟨true, false, 3, 7, false⟩ : SupState).itersRun) :=
  ⟨rfl,
    watchdog_cancellation_monotonic 105 "SOL" ⟨true, false, 3, 7, false⟩
      [.loopCheck true,
       .monTick ⟨.error "net", .error "net", .error "net", .error "net",
         .error "net", .error "net", .error "net", .error "net"⟩] rfl⟩

/-! ## Claim C5: the breach liquidation sequence -/

/-- C5: on a tick whose ticker fetch succeeds with the bid strictly above
the limit, the watchdog sets the shared flag, sends at most two
CancelAllOrders requests (the cancel-and-verify retry), submits at most one
exit sell order and only at the current bid; when every step of the pass
succeeds and a positive balance remains, the tick's request sequence is
exactly set-flag, fetch open orders, cancel, verify, fetch balance, one exit
sell at the current bid for the available amount, and the watchdog
terminates; a tick on a terminated watchdog does nothing, so no second
liquidation pass starts. -/
theorem watchdog_breach_liquidation (limitPrice : ℚ) (coinCode : String)
    (env : MonitorEnv) (info : SpreadInfo)
    (ht : env.ticker = .ok info) (hbr : info.bidPrice > limitPrice) :
    (monitorTick limitPrice coinCode env).flagSet = true ∧
    (monitorTick limitPrice coinCode env).events.countP isCancelAll ≤ 2 ∧
    (monitorTick limitPrice coinCode env).events.countP isPlaceSell ≤ 1 ∧
    (∀ p v, MEvent.placeSellOrder p v ∈ (monitorTick limitPrice coinCode env).events →
      p = info.bidPrice) ∧
    (∀ (olist : List (String × OrderStatus)) (bb : BalanceBody) (bal : Balance),
      env.openOrders1 = .ok olist → olist ≠ [] →
      env.cancel1 = .ok () → env.openOrders2 = .ok [] →
      env.balanceBody = .ok bb → GetBalance bb coinCode "" = .ok bal →
      bal.available > 0 →
      monitorTick limitPrice coinCode env = ⟨true, true,
        [.setFlag, .queryOpenOrders, .cancelAll, .queryOpenOrders, .queryBalance,
         .placeSellOrder info.bidPrice bal.available]⟩) ∧
    (∀ (s : SupState), s.monitorDone = false →
      (supStep limitPrice coinCode s (.monTick env)).canceled = true) ∧
    (∀ (s : SupState) (env' : MonitorEnv), s.monitorDone = true →
      supStep limitPrice coinCode s (.monTick env') = s) := by
  have hmain : (monitorTick limitPrice coinCode env).flagSet = true ∧
      (monitorTick limitPrice coinCode env).events.countP isCancelAll ≤ 2 ∧
      (monitorTick limitPrice coinCode env).events.countP isPlaceSell ≤ 1 ∧
      (∀ p v, MEvent.placeSellOrder p v ∈ (monitorTick limitPrice coinCode env).events →
        p = info.bidPrice) := by
    unfold monitorTick
    simp only [ht]
    rw [if_pos hbr]
    rcases h1 : env.openOrders1 with e1 | olist
    · simp only [h1]
      exact ⟨True.intro, by simp [List.countP_cons, isCancelAll],
        by simp [List.countP_cons, isPlaceSell],
        by intro p v hm; simp at hm⟩
    · simp only [h1]
      split
      · rcases h2 : env.cancel1 with e2 | u2
        · simp only [h2]
          exact ⟨True.intro, by simp [List.countP_cons, List.countP_append, isCancelAll],
            by simp [List.countP_cons, List.countP_append, isPlaceSell],
            by intro p v hm; simp at hm⟩
        · simp only [h2]
          rcases h3 : env.openOrders2 with e3 | olist2
          · simp only [h3]
            exact ⟨True.intro, by simp [List.countP_cons, List.countP_append, isCancelAll],
              by simp [List.countP_cons, List.countP_append, isPlaceSell],
              by intro p v hm; simp at hm⟩
          · simp only [h3]
            split
            · rcases h4 : env.cancel2 with e4 | u4
              · simp only [h4]
                exact ⟨True.intro, by simp [List.countP_cons, List.countP_append, isCancelAll],
                  by simp [List.countP_cons, List.countP_append, isPlaceSell],
                  by intro p v hm; simp at hm⟩
              · simp only [h4]
                rcases h5 : env.openOrders3 with e5 | olist3
                · simp only [h5]
                  exact ⟨True.intro, by simp [List.countP_cons, List.countP_append, isCancelAll],
                    by simp [List.countP_cons, List.countP_append, isPlaceSell],
                    by intro p v hm; simp at hm⟩
                · simp only [h5]
                  split
                  · exact ⟨rfl, by simp [List.countP_cons, List.countP_append, isCancelAll],
                      by simp [List.countP_cons, List.countP_append, isPlaceSell],
                      by intro p v hm; simp at hm⟩
                  · obtain ⟨hf, hc, hp, hm⟩ := monitorTickBalance_spec coinCode
                      info.bidPrice env
                      ([MEvent.setFlag, MEvent.queryOpenOrders] ++
                        [MEvent.cancelAll, MEvent.queryOpenOrders, MEvent.cancelAll,
                         MEvent.queryOpenOrders])
                    refine ⟨hf, ?_, ?_, ?_⟩
                    · rw [hc]
                      simp [List.countP_cons, List.countP_append, isCancelAll]
                    · refine le_trans hp ?_
                      simp [List.countP_cons, List.countP_append, isPlaceSell]
                    · intro p v hmem
                      rcases hm p v hmem with hin | hbid
                      · simp at hin
                      · exact hbid
            · obtain ⟨hf, hc, hp, hm⟩ := monitorTickBalance_spec coinCode
                info.bidPrice env
                ([MEvent.setFlag, MEvent.queryOpenOrders] ++
                  [MEvent.cancelAll, MEvent.queryOpenOrders])
              refine ⟨hf, ?_, ?_, ?_⟩
              · rw [hc]
                simp [List.countP_cons, List.countP_append, isCancelAll]
              · refine le_trans hp ?_
                simp [List.countP_cons, List.countP_append, isPlaceSell]
              · intro p v hmem
                rcases hm p v hmem with hin | hbid
                · simp at hin
                · exact hbid
      · obtain ⟨hf, hc, hp, hm⟩ := monitorTickBalance_spec coinCode
          info.bidPrice env [MEvent.setFlag, MEvent.queryOpenOrders]
        refine ⟨hf, ?_, ?_, ?_⟩
        · rw [hc]
          simp [List.countP_cons, isCancelAll]
        · refine le_trans hp ?_
          simp [List.countP_cons, isPlaceSell]
        · intro p v hmem
          rcases hm p v hmem with hin | hbid
          · simp at hin
          · exact hbid
  refine ⟨hmain.1, hmain.2.1, hmain.2.2.1, hmain.2.2.2, ?_, ?_, ?_⟩
  · intro olist bb bal h1 holist hc1 ho2 hbb hgb hav
    unfold monitorTick
    simp only [ht]
    rw [if_pos hbr]
    simp only [h1]
    rw [if_pos (by simpa using List.length_pos.mpr holist)]
    simp only [hc1, ho2]
    rw [if_neg (by simp)]
    unfold monitorTickBalance
    simp only [hbb, hgb]
    rw [if_pos hav]
    rfl
  · intro s hdone
    simp only [supStep]
    rw [if_neg (by simp [hdone])]
    simp [hmain.1]
  · intro s env' hdone
    simp [supStep, hdone]

/-- Witness for C5: a breach tick (bid 106 above limit 105) whose pass
succeeds end to end with one open order and a positive remaining balance. -/
theorem watchdog_breach_liquidation_witness :
    ((⟨.ok ⟨106, 107, 1, 108, 100, "107"⟩,
        .ok [("T1", ⟨"open", ⟨"buy SOLUSD", "buy", "100", "SOLUSD"⟩, "10", "0", "", "0"⟩)],
        .ok (), .ok [], .error "unused", .error "unused",
        .ok [("SOL.F", ⟨"25", "0"⟩)], .ok "TX"⟩ : MonitorEnv).ticker =
      .ok ⟨106, 107, 1, 108, 100, "107"⟩ ∧
     (106:ℚ) > 105) ∧
    (monitorTick 105 "SOL.F"
      ⟨.ok ⟨106, 107, 1, 108, 100, "107"⟩,
       .ok [("T1", ⟨"open", ⟨"buy SOLUSD", "buy", "100", "SOLUSD"⟩, "10", "0", "", "0"⟩)],
       .ok (), .ok [], .error "unused", .error "unused",
       .ok [("SOL.F", ⟨"25", "0"⟩)], .ok "TX"⟩).flagSet = true :=
  ⟨⟨rfl, by norm_num⟩,
    (watchdog_breach_liquidation 105 "SOL.F"
      ⟨.ok ⟨106, 107, 1, 108, 100, "107"⟩,
       .ok [("T1", ⟨"open", ⟨"buy SOLUSD", "buy", "100", "SOLUSD"⟩, "10", "0", "", "0"⟩)],
       .ok (), .ok [], .error "unused", .error "unused",
       .ok [("SOL.F", ⟨"25", "0"⟩)], .ok "TX"⟩
      ⟨106, 107, 1, 108, 100, "107"⟩ rfl (by norm_num)).1⟩

end CryptoTrader
